import Mathlib

/-!
Shallow embedding of the credential / access-token layer of
`src/lib/drive.js` (Google-drive-cdn-worker).

Machine integers of the source are modelled as `Int` / `Nat`; the token
endpoint, the JSON parser and the RSA signer are external effects and are
modelled as explicit oracles passed to the embedded functions; `Date.now()`
is passed as an explicit `now` parameter.  The unbounded `getAccessToken`
recursion of the source is given an explicit fuel argument: running out of
fuel is reported as the distinguished outcome `TokenOutcome.outOfFuel`, so
non-termination of the source is observable as `outOfFuel` for every fuel.
Every embedded call also returns the list of service accounts for which a
token mint was attempted, in order, so that mint attempts can be counted.
-/

namespace GDriveCdn

/-- One service-account credential record (`client_email` may be absent,
as `serviceAccount.client_email` may be `undefined` in the source). -/
structure ServiceAccount where
  client_email : Option String := none
  private_key : String := ""
deriving DecidableEq

/-- The JSON body returned by the token endpoint: `access_token` plus an
optional `expires_in` (seconds). -/
structure TokenData where
  access_token : String
  expires_in : Option Int := none
deriving DecidableEq

/-- One entry of `this.cachedTokens`: the bearer token and its absolute
expiry in epoch milliseconds. -/
structure CachedToken where
  token : String
  expiresAt : Int
deriving DecidableEq

/-- The mutable fields of `DriveClient` that the token logic touches. -/
structure ClientState where
  serviceAccounts : List ServiceAccount := []
  currentServiceAccountIndex : Nat := 0
  cachedTokens : List (String × CachedToken) := []
  clientId : Option String := none
  clientSecret : Option String := none
  refreshToken : Option String := none
deriving DecidableEq

/-- JavaScript truthiness of a possibly absent string (`undefined` and the
empty string are falsy). -/
def jsTruthy : Option String → Bool
  | none => false
  | some s => !(s == "")

/-- A character the JavaScript `String.prototype.trim()` strips: the
WhiteSpace and LineTerminator characters of the specification. -/
def isJsSpace (c : Char) : Bool :=
  c.toNat = 9 ∨ c.toNat = 10 ∨ c.toNat = 11 ∨ c.toNat = 12 ∨ c.toNat = 13 ∨
    c.toNat = 32 ∨ c.toNat = 160 ∨ c.toNat = 0xFEFF ∨ c.toNat = 0x2028 ∨ c.toNat = 0x2029

/-- The JavaScript `String.prototype.trim()`: strip leading and trailing
whitespace. -/
def jsTrim (s : String) : String :=
  String.mk (((s.data.dropWhile isJsSpace).reverse.dropWhile isJsSpace).reverse)

/-- Lookup in the association-list model of the `Map` `this.cachedTokens`. -/
def mapGet : List (String × CachedToken) → String → Option CachedToken
  | [], _ => none
  | (k, v) :: rest, key => if k = key then some v else mapGet rest key

/-- Update in the association-list model of the `Map` `this.cachedTokens`. -/
def mapSet : List (String × CachedToken) → String → CachedToken → List (String × CachedToken)
  | [], key, v => [(key, v)]
  | (k, w) :: rest, key, v =>
    if k = key then (k, v) :: rest else (k, w) :: mapSet rest key v

/-- Source `getCurrentServiceAccount()`: `null` when the list is empty, else
the record at `currentServiceAccountIndex % length`. -/
def getCurrentServiceAccount (st : ClientState) : Option ServiceAccount :=
  if st.serviceAccounts.length = 0 then none
  else st.serviceAccounts[st.currentServiceAccountIndex % st.serviceAccounts.length]?

/-- Source `rotateServiceAccount()`: advance the cursor modulo the set size,
only when more than one account is configured. -/
def rotateServiceAccount (st : ClientState) : ClientState :=
  if st.serviceAccounts.length > 1 then
    { st with currentServiceAccountIndex :=
        (st.currentServiceAccountIndex + 1) % st.serviceAccounts.length }
  else st

/-- The cache key of a record: `serviceAccount.client_email || 'default'`
(an absent or empty email is falsy and falls back to the literal key). -/
def accountKeyOf (sa : ServiceAccount) : String :=
  match sa.client_email with
  | some e => if e = "" then "default" else e
  | none => "default"

/-- The cache-read step of `getAccessToken`: a token is served only when
`cached && cached.expiresAt > Date.now() + 60000`. -/
def cacheLookup (now : Int) (m : List (String × CachedToken)) (key : String) : Option String :=
  match mapGet m key with
  | some cached => if now + 60000 < cached.expiresAt then some cached.token else none
  | none => none

/-- The lifetime used by the source, `tokenData.expires_in || 3600`:
an absent `expires_in` — or one reported as the falsy number 0 — falls
back to 3600 seconds. -/
def tokenLifetimeSeconds (td : TokenData) : Int :=
  match td.expires_in with
  | some x => if x = 0 then 3600 else x
  | none => 3600

/-- The cache entry written after a successful mint at time `now`:
`expiresAt = Date.now() + (expires_in || 3600) * 1000`. -/
def mintedEntry (now : Int) (td : TokenData) : CachedToken :=
  { token := td.access_token, expiresAt := now + tokenLifetimeSeconds td * 1000 }

/-- Outcome of one external `getAccessToken()` call: a token, a thrown
error, or fuel exhaustion (the marker for the source recursing forever). -/
inductive TokenOutcome where
  | ok : String → TokenOutcome
  | error : String → TokenOutcome
  | outOfFuel : TokenOutcome
deriving DecidableEq

/-- Source `getAccessToken()` (the service-account branch and the OAuth
fallback), with the accounts already loaded.  `mint` is the external
`fetchServiceAccountToken` exchange, `refreshMint` the external
`refreshUserToken` exchange.  Returns the outcome, the state after the
call, and the list of service accounts a mint was attempted for. -/
def getAccessToken (mint : ServiceAccount → Except String TokenData)
    (refreshMint : Except String TokenData) (now : Int) :
    Nat → ClientState → TokenOutcome × ClientState × List ServiceAccount
  | 0, st => (TokenOutcome.outOfFuel, st, [])
  | fuel + 1, st =>
    match getCurrentServiceAccount st with
    | some sa =>
      let accountKey := accountKeyOf sa
      match cacheLookup now st.cachedTokens accountKey with
      | some t => (TokenOutcome.ok t, st, [])
      | none =>
        match mint sa with
        | Except.ok tokenData =>
          (TokenOutcome.ok tokenData.access_token,
            { st with cachedTokens :=
                mapSet st.cachedTokens accountKey (mintedEntry now tokenData) }, [sa])
        | Except.error e =>
          let st2 := rotateServiceAccount st
          if st2.serviceAccounts.length > 1 then
            let r := getAccessToken mint refreshMint now fuel st2
            (r.1, r.2.1, sa :: r.2.2)
          else (TokenOutcome.error e, st2, [sa])
    | none =>
      if jsTruthy st.clientId && jsTruthy st.clientSecret && jsTruthy st.refreshToken then
        match cacheLookup now st.cachedTokens "oauth" with
        | some t => (TokenOutcome.ok t, st, [])
        | none =>
          match refreshMint with
          | Except.ok tokenData =>
            (TokenOutcome.ok tokenData.access_token,
              { st with cachedTokens :=
                  mapSet st.cachedTokens "oauth" (mintedEntry now tokenData) }, [])
          | Except.error e => (TokenOutcome.error e, st, [])
      else
        (TokenOutcome.error
          "No authentication method available. Configure service accounts or OAuth credentials.",
          st, [])

/-! Credential source resolution (`loadServiceAccounts` / `parseServiceAccounts`).
`JSON.parse` is the oracle `parseJson : String → Option ServiceAccount`
(`none` = the parse throws); a thrown parse is caught where the source
catches it. -/

/-- The environment-variable configuration consumed by `parseServiceAccounts`
and the legacy fallback of `loadServiceAccounts`. -/
structure EnvConfig where
  GDRIVE_SERVICE_ACCOUNTS : Option String := none
  numbered : Nat → Option String := fun _ => none
  GDRIVE_SERVICE_ACCOUNT : Option String := none

/-- The `|||`-joined branch: the `for (const accountStr of accountStrings)`
loop runs inside one `try`, so the first blob whose `JSON.parse` throws
aborts the remaining blobs of the value; blobs already pushed are kept,
and blobs that are empty after trimming are skipped. -/
def parseBlobList (parseJson : String → Option ServiceAccount) :
    List String → List ServiceAccount
  | [] => []
  | b :: rest =>
    let t := jsTrim b
    if t = "" then parseBlobList parseJson rest
    else
      match parseJson t with
      | some sa => sa :: parseBlobList parseJson rest
      | none => []

/-- The numbered-key loop `for (let i = 0; i < 100; i++)`: a present key is
parsed inside its own `try` (a malformed one is skipped), a missing (or
falsy) key at `i > 0` breaks the loop when no account has been collected
yet.  `fuel` counts the remaining iterations (100 at `i = 0`). -/
def numberedScan (parseJson : String → Option ServiceAccount) (env : EnvConfig) :
    Nat → Nat → List ServiceAccount → List ServiceAccount
  | 0, _, acc => acc
  | fuel + 1, i, acc =>
    match env.numbered i with
    | some v =>
      if v = "" then
        if i ≠ 0 ∧ acc = [] then acc
        else numberedScan parseJson env fuel (i + 1) acc
      else
        numberedScan parseJson env fuel (i + 1)
          (match parseJson v with
           | some sa => acc ++ [sa]
           | none => acc)
    | none =>
      if i ≠ 0 ∧ acc = [] then acc
      else numberedScan parseJson env fuel (i + 1) acc

/-- Source `parseServiceAccounts(env)`: the `|||`-joined value first, then
the numbered keys `GDRIVE_SERVICE_ACCOUNT_0 … _99` appended to the same
accumulator. -/
def parseServiceAccounts (parseJson : String → Option ServiceAccount)
    (env : EnvConfig) : List ServiceAccount :=
  let fromJoined :=
    match env.GDRIVE_SERVICE_ACCOUNTS with
    | some s => if s = "" then [] else parseBlobList parseJson (s.splitOn "|||")
    | none => []
  numberedScan parseJson env 100 0 fromJoined

/-- A JSON document that may carry an `accounts` field: `accounts = some l`
models a present array value (a JavaScript array, even empty, is truthy, so
`data.accounts && Array.isArray(data.accounts)` holds exactly then). -/
structure AccountsDoc where
  accounts : Option (List ServiceAccount) := none
deriving DecidableEq

/-- The credential sources visible to `loadServiceAccounts`: the bundled
JSON module (`none` = the dynamic import failed or has no usable default),
the `SERVICE_ACCOUNTS_URL` value, the outcome of fetching that URL
(`none` = network error, non-ok status or unparsable body), and the
environment variables. -/
structure SourceConfig where
  bundled : Option AccountsDoc := none
  serviceAccountsUrl : Option String := none
  urlResponse : Option AccountsDoc := none
  env : EnvConfig := {}

/-- What one complete resolution produced, and which later sources it
touched along the way. -/
structure LoadOutcome where
  serviceAccounts : List ServiceAccount
  urlFetched : Bool
  envConsulted : Bool
deriving DecidableEq

/-- Method 3 plus the legacy fallback: `parseServiceAccounts`, then the
single `GDRIVE_SERVICE_ACCOUNT` blob only when that yielded zero records
(its parse failure is caught and leaves the empty list). -/
def envMethodAccounts (parseJson : String → Option ServiceAccount)
    (env : EnvConfig) : List ServiceAccount :=
  let accs := parseServiceAccounts parseJson env
  if accs.length = 0 ∧ jsTruthy env.GDRIVE_SERVICE_ACCOUNT = true then
    match env.GDRIVE_SERVICE_ACCOUNT with
    | some v =>
      match parseJson v with
      | some sa => [sa]
      | none => []
    | none => []
  else accs

/-- Source `loadServiceAccounts()` after the bundled import settled:
method 1 (bundled doc with an `accounts` array — even an empty one — wins
and stops), method 2 (fetch the URL when configured; a usable `accounts`
array wins), method 3 (environment variables, always succeeds). -/
def loadServiceAccounts (parseJson : String → Option ServiceAccount)
    (cfg : SourceConfig) : LoadOutcome :=
  let tryEnv : Bool → LoadOutcome := fun fetched =>
    { serviceAccounts := envMethodAccounts parseJson cfg.env,
      urlFetched := fetched, envConsulted := true }
  let tryUrl : LoadOutcome :=
    if jsTruthy cfg.serviceAccountsUrl = true then
      match cfg.urlResponse with
      | some doc =>
        match doc.accounts with
        | some accs =>
          { serviceAccounts := accs, urlFetched := true, envConsulted := false }
        | none => tryEnv true
      | none => tryEnv true
    else tryEnv false
  match cfg.bundled with
  | some doc =>
    match doc.accounts with
    | some accs =>
      { serviceAccounts := accs, urlFetched := false, envConsulted := false }
    | none => tryUrl
  | none => tryUrl

/-! Drive query building (`listFiles`, `buildParentsQuery`,
`buildTypeClause`, `escapeQueryValue`). -/

/-- Source constant `MAX_LIST_PAGE_SIZE`. -/
def MAX_LIST_PAGE_SIZE : Int := 100

/-- Source table `TYPE_FILTERS`. -/
def TYPE_FILTERS : String → List String
  | "images" => ["mimeType contains 'image/'"]
  | "video" => ["mimeType contains 'video/'"]
  | "audio" => ["mimeType contains 'audio/'"]
  | "documents" =>
    ["mimeType = 'application/pdf'",
     "mimeType contains 'text/'",
     "mimeType contains 'application/msword'",
     "mimeType contains 'application/vnd.openxmlformats-officedocument'",
     "mimeType contains 'application/vnd.google-apps.document'",
     "mimeType contains 'application/vnd.google-apps.presentation'",
     "mimeType contains 'application/vnd.google-apps.spreadsheet'"]
  | "code" =>
    ["mimeType = 'application/javascript'",
     "mimeType = 'application/x-javascript'",
     "mimeType = 'text/css'",
     "mimeType = 'text/html'",
     "mimeType contains 'text/x-'",
     "mimeType contains 'application/json'"]
  | "data" =>
    ["mimeType = 'text/csv'",
     "mimeType = 'application/csv'",
     "mimeType contains 'spreadsheet'",
     "mimeType contains 'application/vnd.ms-excel'",
     "mimeType contains 'application/vnd.google-apps.spreadsheet'",
     "mimeType = 'application/json'"]
  | _ => []

/-- Source `buildTypeClause(type)`: empty for a falsy or unknown type, the
single predicate bare, several predicates `or`-joined in parentheses. -/
def buildTypeClause (type : Option String) : String :=
  if jsTruthy type = true then
    let filters := TYPE_FILTERS (type.getD "")
    if filters.length = 0 then ""
    else if filters.length = 1 then filters.headD ""
    else "(" ++ String.intercalate " or " filters ++ ")"
  else ""

/-- What `replace(/'/g, "\\'")` does to one character: a single quote
becomes a backslash and the quote, anything else is kept. -/
def escapeQuoteChar (c : Char) : List Char :=
  if c = '\'' then ['\\', '\''] else [c]

/-- Source `escapeQueryValue(value)`: `value.replace(/'/g, "\\'")`, each
single quote replaced by a backslash and the quote. -/
def escapeQueryValue (value : String) : String :=
  String.mk (value.data.flatMap escapeQuoteChar)

/-- Source `buildParentsQuery()`: one membership clause per configured root,
`or`-joined in parentheses when there are several. -/
def buildParentsQuery (parents : List String) : String :=
  if parents.length = 0 then ""
  else
    let clauses := parents.map fun parentId => "'" ++ parentId ++ "' in parents"
    if clauses.length = 1 then clauses.headD ""
    else "(" ++ String.intercalate " or " clauses ++ ")"

/-- The options object of `listFiles`. -/
structure ListOptions where
  pageSize : Option Int := none
  pageToken : Option String := none
  search : Option String := none
  type : Option String := none

/-- The `pageSize` actually sent:
`Math.min(Math.max(pageSize || 24, 1), MAX_LIST_PAGE_SIZE)` — an absent or
zero (falsy) page size falls back to the default 24 before clamping. -/
def listFilesSafeSize (o : ListOptions) : Int :=
  let base : Int :=
    match o.pageSize with
    | some v => if v = 0 then 24 else v
    | none => 24
  min (max base 1) MAX_LIST_PAGE_SIZE

/-- The `q` parameter built by `listFiles`: `trashed = false`, the parents
clause when non-empty, the escaped name-contains clause when the trimmed
search is non-empty, the type clause when non-empty, ` and `-joined. -/
def listFilesQuery (parents : List String) (o : ListOptions) : String :=
  let base := ["trashed = false"]
  let p1 :=
    let pc := buildParentsQuery parents
    if pc = "" then base else base ++ [pc]
  let trimmedSearch := jsTrim (o.search.getD "")
  let p2 :=
    if trimmedSearch = "" then p1
    else p1 ++ ["name contains '" ++ escapeQueryValue trimmedSearch ++ "'"]
  let p3 :=
    let tc := buildTypeClause o.type
    if tc = "" then p2 else p2 ++ [tc]
  String.intercalate " and " p3

/-! JWT assertion construction (`generateServiceAccountAssertion`, `btoa`,
`base64UrlEncode`, `sign`'s base64url step).  Bytes are `Nat < 256`; the
RSA signature produced by `crypto.subtle.sign` is an oracle byte list. -/

/-- The standard base64 alphabet character of a sextet value. -/
def b64Char (v : Nat) : Char :=
  if v < 26 then Char.ofNat (65 + v)
  else if v < 52 then Char.ofNat (97 + (v - 26))
  else if v < 62 then Char.ofNat (48 + (v - 52))
  else if v = 62 then '+'
  else '/'

/-- Base64 of a byte list, three bytes to four characters, `=`-padded. -/
def b64EncodeBytes : List Nat → List Char
  | b1 :: b2 :: b3 :: rest =>
    b64Char (b1 / 4) :: b64Char (b1 % 4 * 16 + b2 / 16) ::
      b64Char (b2 % 16 * 4 + b3 / 64) :: b64Char (b3 % 64) :: b64EncodeBytes rest
  | [b1, b2] =>
    [b64Char (b1 / 4), b64Char (b1 % 4 * 16 + b2 / 16), b64Char (b2 % 16 * 4), '=']
  | [b1] => [b64Char (b1 / 4), b64Char (b1 % 4 * 16), '=', '=']
  | [] => []

/-- The char codes of a string (what `btoa` reads; it requires them < 256). -/
def strBytes (s : String) : List Nat := s.data.map fun c => c.toNat

/-- The platform `btoa`. -/
def btoa (s : String) : String := String.mk (b64EncodeBytes (strBytes s))

/-- The `replace(/\+/g, '-').replace(/\//g, '_')` step. -/
def b64ToUrlChar (c : Char) : Char :=
  if c = '+' then '-' else if c = '/' then '_' else c

/-- The `replace(/=+$/, '')` step. -/
def dropTrailingEq (l : List Char) : List Char :=
  ((l.reverse.dropWhile fun c => c = '=').reverse)

/-- Source `base64UrlEncode(input)`: `btoa`, then `+`/`/` mapping, then the
trailing `=` strip. -/
def base64UrlEncode (input : String) : String :=
  String.mk (dropTrailingEq ((btoa input).data.map b64ToUrlChar))

/-- The base64url step of source `sign(...)` applied to the raw RSA
signature bytes (`arrayBufferToBase64` then the same two maps and strip). -/
def encodeSignature (sigBytes : List Nat) : String :=
  String.mk (dropTrailingEq ((b64EncodeBytes sigBytes).map b64ToUrlChar))

/-- Source constant `DRIVE_SCOPE`. -/
def DRIVE_SCOPE : String := "https://www.googleapis.com/auth/drive"

/-- Source constant `TOKEN_ENDPOINT`. -/
def TOKEN_ENDPOINT : String := "https://oauth2.googleapis.com/token"

/-- The lowercase hex digit of a nibble (as `JSON.stringify` emits it). -/
def hexDigit (n : Nat) : Char :=
  if n < 10 then Char.ofNat (48 + n) else Char.ofNat (87 + n)

/-- `JSON.stringify` escaping of one character of a string value. -/
def jsonEscapeChar (c : Char) : List Char :=
  if c = '"' then ['\\', '"']
  else if c = '\\' then ['\\', '\\']
  else if c.toNat = 8 then ['\\', 'b']
  else if c.toNat = 9 then ['\\', 't']
  else if c.toNat = 10 then ['\\', 'n']
  else if c.toNat = 12 then ['\\', 'f']
  else if c.toNat = 13 then ['\\', 'r']
  else if c.toNat < 32 then
    ['\\', 'u', '0', '0', hexDigit (c.toNat / 16), hexDigit (c.toNat % 16)]
  else [c]

/-- `JSON.stringify` of a string value. -/
def jsonString (s : String) : String :=
  "\"" ++ String.mk (s.data.flatMap jsonEscapeChar) ++ "\""

/-- `JSON.stringify(header)` for the fixed header object
`alg: RS256, typ: JWT` (insertion order preserved). -/
def headerJson : String := "\x7b\"alg\":\"RS256\",\"typ\":\"JWT\"\x7d"

/-- `JSON.stringify(payload)` for the claim-set object, keys in the
insertion order `iss, scope, aud, exp, iat` of the source object literal;
an absent `client_email` (`iss: undefined`) is omitted by `stringify`. -/
def payloadJson (client_email : Option String) (iat : Nat) : String :=
  let issPart :=
    match client_email with
    | some e => "\"iss\":" ++ jsonString e ++ ","
    | none => ""
  "\x7b" ++ issPart ++ "\"scope\":" ++ jsonString DRIVE_SCOPE ++
    ",\"aud\":" ++ jsonString TOKEN_ENDPOINT ++
    ",\"exp\":" ++ toString (iat + 3600) ++ ",\"iat\":" ++ toString iat ++ "\x7d"

/-- Source `generateServiceAccountAssertion(serviceAccount)`:
`iat = Math.floor(Date.now() / 1000)`, `exp = iat + 3600`, the three
base64url segments joined by dots.  `sigBytes` is the RSA-SHA256 signature
the WebCrypto oracle returns for `header.payload`. -/
def generateServiceAccountAssertion (sa : ServiceAccount) (nowMs : Nat)
    (sigBytes : List Nat) : String :=
  let iat := nowMs / 1000
  let encHeader := base64UrlEncode headerJson
  let encPayload := base64UrlEncode (payloadJson sa.client_email iat)
  encHeader ++ "." ++ encPayload ++ "." ++ encodeSignature sigBytes

/-- The value of a base64url character (specification-side decoder). -/
def b64CharVal (c : Char) : Option Nat :=
  if 65 ≤ c.toNat ∧ c.toNat ≤ 90 then some (c.toNat - 65)
  else if 97 ≤ c.toNat ∧ c.toNat ≤ 122 then some (c.toNat - 97 + 26)
  else if 48 ≤ c.toNat ∧ c.toNat ≤ 57 then some (c.toNat - 48 + 52)
  else if c = '-' then some 62
  else if c = '_' then some 63
  else none

/-- Unpadded base64url decoding of a character list to bytes
(specification-side decoder used to state the round-trip property). -/
def b64UrlDecodeChars : List Char → Option (List Nat)
  | [] => some []
  | [_] => none
  | [c1, c2] =>
    match b64CharVal c1, b64CharVal c2 with
    | some v1, some v2 => some [v1 * 4 + v2 / 16]
    | _, _ => none
  | [c1, c2, c3] =>
    match b64CharVal c1, b64CharVal c2, b64CharVal c3 with
    | some v1, some v2, some v3 => some [v1 * 4 + v2 / 16, v2 % 16 * 16 + v3 / 4]
    | _, _, _ => none
  | c1 :: c2 :: c3 :: c4 :: rest =>
    match b64CharVal c1, b64CharVal c2, b64CharVal c3, b64CharVal c4,
        b64UrlDecodeChars rest with
    | some v1, some v2, some v3, some v4, some bs =>
      some ((v1 * 4 + v2 / 16) :: (v2 % 16 * 16 + v3 / 4) :: (v3 % 4 * 64 + v4) :: bs)
    | _, _, _, _, _ => none

/-- Base64url decoding of a string back to the string of the byte values. -/
def base64UrlDecode (s : String) : Option String :=
  (b64UrlDecodeChars s.data).map fun bytes => String.mk (bytes.map Char.ofNat)

/-! Interleaving model of two concurrent first calls to
`loadServiceAccounts()` in one isolate.  The source suspends at `await`
boundaries only; the relevant ones for resolution are the module-level
bundled-import promise (created under the `if (!bundledServiceAccountsPromise)`
check, shared by every awaiter) and the per-call continuation after it.
A process at `start` runs lines 70-88 up to the bundled await; once that
promise settled, a `resume` runs the rest of the method (URL fetch and the
environment fallback) without further interleaving — collapsing the later
awaits keeps every behaviour relevant to how often each source is queried,
since the second caller is already past the `accountsLoaded` check. -/

/-- Program counter of one caller inside `loadServiceAccounts()`. -/
inductive ProcPc where
  | start
  | awaitBundled
  | done
deriving DecidableEq

/-- One caller: where it is, and the Credential Set it observed on return. -/
structure ProcState where
  pc : ProcPc := ProcPc.start
  observed : Option (List ServiceAccount) := none
deriving DecidableEq

/-- The isolate: both callers, the module-level import promise cell, the
flag that the import settled, the count of bundled imports started and of
URL fetches issued, and the `DriveClient` fields the method writes. -/
structure IsolateState where
  p1 : ProcState := {}
  p2 : ProcState := {}
  importStarted : Bool := false
  importCount : Nat := 0
  bundledResolved : Bool := false
  urlFetchCount : Nat := 0
  loaded : Bool := false
  accounts : List ServiceAccount := []
deriving DecidableEq

/-- Scheduler events: advance caller 1, advance caller 2, or settle the
bundled import promise (only meaningful once it was created). -/
inductive SchedEv where
  | step1
  | step2
  | resolveBundled
deriving DecidableEq

/-- Advance one caller by one scheduling quantum. -/
def procStep (parseJson : String → Option ServiceAccount) (cfg : SourceConfig)
    (s : IsolateState) (p : ProcState) : IsolateState × ProcState :=
  match p.pc with
  | ProcPc.start =>
    if s.loaded then
      (s, { p with pc := ProcPc.done, observed := some s.accounts })
    else
      let s2 :=
        if s.importStarted then s
        else { s with importStarted := true, importCount := s.importCount + 1 }
      (s2, { p with pc := ProcPc.awaitBundled })
  | ProcPc.awaitBundled =>
    if s.bundledResolved then
      let r := loadServiceAccounts parseJson cfg
      ({ s with
          accounts := r.serviceAccounts,
          loaded := true,
          urlFetchCount := s.urlFetchCount + (if r.urlFetched then 1 else 0) },
        { p with pc := ProcPc.done, observed := some r.serviceAccounts })
    else (s, p)
  | ProcPc.done => (s, p)

/-- One scheduler event applied to the isolate. -/
def schedStep (parseJson : String → Option ServiceAccount) (cfg : SourceConfig)
    (s : IsolateState) : SchedEv → IsolateState
  | SchedEv.step1 =>
    let r := procStep parseJson cfg s s.p1
    { r.1 with p1 := r.2 }
  | SchedEv.step2 =>
    let r := procStep parseJson cfg s s.p2
    { r.1 with p2 := r.2 }
  | SchedEv.resolveBundled =>
    if s.importStarted then { s with bundledResolved := true } else s

/-- Run a schedule from the cold-start isolate. -/
def runSched (parseJson : String → Option ServiceAccount) (cfg : SourceConfig)
    (evs : List SchedEv) : IsolateState :=
  evs.foldl (schedStep parseJson cfg) {}

/-! Shared evaluation lemmas for `getAccessToken`. -/

/-- Sample records used by the concrete counterexamples and witnesses. -/
def sampleAccountA : ServiceAccount := { client_email := some "a@example.com" }

/-- Second sample record. -/
def sampleAccountB : ServiceAccount := { client_email := some "b@example.com" }

theorem getCurrentServiceAccount_eq (st : ClientState)
    (h : st.serviceAccounts.length ≠ 0) :
    getCurrentServiceAccount st =
      some (st.serviceAccounts.get
        ⟨st.currentServiceAccountIndex % st.serviceAccounts.length,
         Nat.mod_lt _ (Nat.pos_of_ne_zero h)⟩) := by
  unfold getCurrentServiceAccount
  rw [if_neg h, List.getElem?_eq_getElem (Nat.mod_lt _ (Nat.pos_of_ne_zero h))]
  rfl

theorem cacheLookup_eq_none (now : Int) (m : List (String × CachedToken)) (key : String)
    (h : ∀ c, mapGet m key = some c → ¬(now + 60000 < c.expiresAt)) :
    cacheLookup now m key = none := by
  unfold cacheLookup
  cases hm : mapGet m key with
  | none => rfl
  | some c =>
    have hv := h c hm
    simp [hv]

theorem mapGet_mapSet_self (m : List (String × CachedToken)) (key : String) (v : CachedToken) :
    mapGet (mapSet m key v) key = some v := by
  induction m with
  | nil => simp [mapSet, mapGet]
  | cons p rest ih =>
    by_cases h : p.1 = key
    · simp [mapSet, mapGet, h]
    · simp [mapSet, mapGet, h, ih]

theorem getAccessToken_cache_hit (mint : ServiceAccount → Except String TokenData)
    (refreshMint : Except String TokenData) (now : Int) (fuel : Nat) (st : ClientState)
    (sa : ServiceAccount) (t : String)
    (hcur : getCurrentServiceAccount st = some sa)
    (hhit : cacheLookup now st.cachedTokens (accountKeyOf sa) = some t) :
    getAccessToken mint refreshMint now (fuel + 1) st = (TokenOutcome.ok t, st, []) := by
  simp only [getAccessToken, hcur, hhit]

theorem getAccessToken_mint_ok (mint : ServiceAccount → Except String TokenData)
    (refreshMint : Except String TokenData) (now : Int) (fuel : Nat) (st : ClientState)
    (sa : ServiceAccount) (td : TokenData)
    (hcur : getCurrentServiceAccount st = some sa)
    (hmiss : cacheLookup now st.cachedTokens (accountKeyOf sa) = none)
    (hmint : mint sa = Except.ok td) :
    getAccessToken mint refreshMint now (fuel + 1) st =
      (TokenOutcome.ok td.access_token,
       { st with cachedTokens :=
           mapSet st.cachedTokens (accountKeyOf sa) (mintedEntry now td) },
       [sa]) := by
  simp only [getAccessToken, hcur, hmiss, hmint]

theorem getAccessToken_mint_error_multi (mint : ServiceAccount → Except String TokenData)
    (refreshMint : Except String TokenData) (now : Int) (fuel : Nat) (st : ClientState)
    (sa : ServiceAccount) (e : String)
    (hcur : getCurrentServiceAccount st = some sa)
    (hmiss : cacheLookup now st.cachedTokens (accountKeyOf sa) = none)
    (hmint : mint sa = Except.error e)
    (hlen : st.serviceAccounts.length > 1) :
    getAccessToken mint refreshMint now (fuel + 1) st =
      ((getAccessToken mint refreshMint now fuel (rotateServiceAccount st)).1,
       (getAccessToken mint refreshMint now fuel (rotateServiceAccount st)).2.1,
       sa :: (getAccessToken mint refreshMint now fuel (rotateServiceAccount st)).2.2) := by
  have hlen2 : (rotateServiceAccount st).serviceAccounts.length > 1 := by
    unfold rotateServiceAccount
    split <;> simpa using hlen
  simp only [getAccessToken, hcur, hmiss, hmint, if_pos hlen2]

theorem getAccessToken_mint_error_single (mint : ServiceAccount → Except String TokenData)
    (refreshMint : Except String TokenData) (now : Int) (fuel : Nat) (st : ClientState)
    (sa : ServiceAccount) (e : String)
    (hcur : getCurrentServiceAccount st = some sa)
    (hmiss : cacheLookup now st.cachedTokens (accountKeyOf sa) = none)
    (hmint : mint sa = Except.error e)
    (hlen : ¬st.serviceAccounts.length > 1) :
    getAccessToken mint refreshMint now (fuel + 1) st =
      (TokenOutcome.error e, rotateServiceAccount st, [sa]) := by
  have hlen2 : ¬(rotateServiceAccount st).serviceAccounts.length > 1 := by
    unfold rotateServiceAccount
    split <;> simpa using hlen
  simp only [getAccessToken, hcur, hmiss, hmint, if_neg hlen2]

/-! C1: rotation termination.  The source recursion has no attempt bound:
with two permanently failing accounts, `getAccessToken()` mints once per
recursion level for ever (fuel exhaustion at every fuel, one mint per unit
of fuel), instead of failing after exactly N = 2 mint attempts. -/

/-- The C1 failing input: two service accounts whose every mint attempt
fails, cold token cache, cursor anywhere. -/
def c1FailingState (cursor : Nat) : ClientState :=
  { serviceAccounts := [sampleAccountA, sampleAccountB],
    currentServiceAccountIndex := cursor }

/-- C1: with every identity of the two-account Credential Set failing,
`getAccessToken()` never surfaces the failure: for every fuel the embedded
call is still recursing when the fuel runs out, having made one mint
attempt per unit of fuel — so the number of mint attempts in one external
invocation exceeds every bound, contradicting the claimed "fails after
exactly N attempts". -/
theorem c1_all_fail_unbounded_recursion :
    ∀ (fuel cursor : Nat),
      (getAccessToken (fun _ => Except.error "invalid_grant") (Except.error "no oauth")
          0 fuel (c1FailingState cursor)).1 = TokenOutcome.outOfFuel ∧
      (getAccessToken (fun _ => Except.error "invalid_grant") (Except.error "no oauth")
          0 fuel (c1FailingState cursor)).2.2.length = fuel := by
  intro fuel
  induction fuel with
  | zero => intro cursor; exact ⟨rfl, rfl⟩
  | succ n ih =>
    intro cursor
    have hlen : (c1FailingState cursor).serviceAccounts.length ≠ 0 := by
      simp [c1FailingState]
    have hcur := getCurrentServiceAccount_eq (c1FailingState cursor) hlen
    have hmiss : cacheLookup 0 (c1FailingState cursor).cachedTokens
        (accountKeyOf ((c1FailingState cursor).serviceAccounts.get
          ⟨cursor % 2, Nat.mod_lt _ (by decide)⟩)) = none := rfl
    have hrot : rotateServiceAccount (c1FailingState cursor) =
        c1FailingState ((cursor + 1) % 2) := by
      simp [rotateServiceAccount, c1FailingState]
    have hstep := getAccessToken_mint_error_multi
      (fun _ => Except.error "invalid_grant") (Except.error "no oauth") 0 n
      (c1FailingState cursor) _ "invalid_grant" hcur hmiss rfl (by simp [c1FailingState])
    rw [hstep, hrot]
    exact ⟨(ih ((cursor + 1) % 2)).1, by simp [(ih ((cursor + 1) % 2)).2]⟩

/-! C10: records without a `client_email` share the cache key `default`. -/

/-- C10: every record with a falsy `client_email` is cached under the
literal key `default`; with two such records, a token minted while the
cursor was at the first is returned by a later call while the cursor
points at the second, with no mint attempted. -/
theorem c10_missing_email_shares_default_key
    (a b : ServiceAccount)
    (ha : jsTruthy a.client_email = false) (hb : jsTruthy b.client_email = false)
    (mint : ServiceAccount → Except String TokenData)
    (refreshMint : Except String TokenData)
    (now now2 : Int) (td : TokenData) (fuel fuel2 : Nat)
    (hmint : mint a = Except.ok td)
    (hfresh : now2 + 60000 < now + tokenLifetimeSeconds td * 1000) :
    accountKeyOf a = "default" ∧ accountKeyOf b = "default" ∧
    getAccessToken mint refreshMint now (fuel + 1) { serviceAccounts := [a, b] } =
      (TokenOutcome.ok td.access_token,
       { serviceAccounts := [a, b],
         cachedTokens := [("default", mintedEntry now td)] },
       [a]) ∧
    getAccessToken mint refreshMint now2 (fuel2 + 1)
        { serviceAccounts := [a, b], currentServiceAccountIndex := 1,
          cachedTokens := [("default", mintedEntry now td)] } =
      (TokenOutcome.ok td.access_token,
       { serviceAccounts := [a, b], currentServiceAccountIndex := 1,
         cachedTokens := [("default", mintedEntry now td)] },
       []) := by
  have keyOf : ∀ sa : ServiceAccount, jsTruthy sa.client_email = false →
      accountKeyOf sa = "default" := by
    intro sa h
    cases hc : sa.client_email with
    | none => simp [accountKeyOf, hc]
    | some e =>
      rw [hc] at h
      have he : e = "" := by simpa [jsTruthy] using h
      simp [accountKeyOf, hc, he]
  have hka := keyOf a ha
  have hkb := keyOf b hb
  refine ⟨hka, hkb, ?_, ?_⟩
  · have hcur : getCurrentServiceAccount { serviceAccounts := [a, b] } = some a := rfl
    have h1 := getAccessToken_mint_ok mint refreshMint now fuel
      { serviceAccounts := [a, b] } a td hcur (by rw [hka]; rfl) hmint
    rw [h1, hka]
    rfl
  · have hcur : getCurrentServiceAccount
        { serviceAccounts := [a, b], currentServiceAccountIndex := 1,
          cachedTokens := [("default", mintedEntry now td)] } = some b := rfl
    have hhit : cacheLookup now2 [("default", mintedEntry now td)] (accountKeyOf b) =
        some td.access_token := by
      rw [hkb]
      unfold cacheLookup mapGet mintedEntry
      simp [hfresh]
    exact getAccessToken_cache_hit mint refreshMint now2 fuel2 _ b td.access_token hcur hhit

/-- C10 witness: concrete records (one `client_email` absent, one empty),
a concrete mint, concrete times. -/
theorem c10_missing_email_shares_default_key_witness :
    accountKeyOf { client_email := none } = "default" ∧
    accountKeyOf { client_email := some "" } = "default" ∧
    getAccessToken
        (fun _ => Except.ok { access_token := "tokA", expires_in := some 3600 })
        (Except.error "no oauth") 0 1
        { serviceAccounts := [{ client_email := none }, { client_email := some "" }] } =
      (TokenOutcome.ok "tokA",
       { serviceAccounts := [{ client_email := none }, { client_email := some "" }],
         cachedTokens := [("default",
           mintedEntry 0 { access_token := "tokA", expires_in := some 3600 })] },
       [{ client_email := none }]) ∧
    getAccessToken
        (fun _ => Except.ok { access_token := "tokA", expires_in := some 3600 })
        (Except.error "no oauth") 1000 1
        { serviceAccounts := [{ client_email := none }, { client_email := some "" }],
          currentServiceAccountIndex := 1,
          cachedTokens := [("default",
            mintedEntry 0 { access_token := "tokA", expires_in := some 3600 })] } =
      (TokenOutcome.ok "tokA",
       { serviceAccounts := [{ client_email := none }, { client_email := some "" }],
         currentServiceAccountIndex := 1,
         cachedTokens := [("default",
           mintedEntry 0 { access_token := "tokA", expires_in := some 3600 })] },
       []) :=
  c10_missing_email_shares_default_key { client_email := none } { client_email := some "" }
    rfl rfl (fun _ => Except.ok { access_token := "tokA", expires_in := some 3600 })
    (Except.error "no oauth") 0 1000 { access_token := "tokA", expires_in := some 3600 }
    0 0 rfl (by decide)

/-! C3: expiry computation and the 60-second safety margin. -/

/-- The C3 counterexample mint oracle: the exchange reports
`expires_in = 0`. -/
def c3ZeroMint : ServiceAccount → Except String TokenData :=
  fun _ => Except.ok { access_token := "tok0", expires_in := some 0 }

/-- C3 counterexample: a token minted at `T = 0` whose exchange response
carries `expires_in = L` with `L = 0` is stored with
`expiresAt = 3600000`, not the claimed `T + L*1000 = 0`:
`tokenData.expires_in || 3600` treats the numeric 0 as falsy and falls
back to the 3600-second default. -/
theorem c3_counterexample_zero_expires_in :
    getAccessToken c3ZeroMint (Except.error "no oauth") 0 1
        { serviceAccounts := [sampleAccountA] } =
      (TokenOutcome.ok "tok0",
       { serviceAccounts := [sampleAccountA],
         cachedTokens := [("a@example.com", { token := "tok0", expiresAt := 3600000 })] },
       [sampleAccountA]) ∧
    (3600000 : Int) ≠ 0 + 0 * 1000 := by
  refine ⟨by decide, by decide⟩

/-- C3 (amended): a mint at time `T` whose response carries a nonzero
`expires_in = L` is stored with `expiresAt = T + L*1000`; the lifetime
defaults to 3600 seconds when the response omits `expires_in` — or
reports it as 0, since `expires_in || 3600` treats 0 as falsy; a cached
token is served without a mint attempt exactly when
`now + 60000 < expiresAt`; in particular a token with
`expiresAt = T + L*1000` is still served at `T + (L-61)` seconds and no
longer served at `T + (L-59)` seconds. -/
theorem c3_expiry_and_safety_margin
    (mint : ServiceAccount → Except String TokenData)
    (refreshMint : Except String TokenData) :
    (∀ (st : ClientState) (sa : ServiceAccount) (T : Int) (td : TokenData) (fuel : Nat),
      getCurrentServiceAccount st = some sa →
      cacheLookup T st.cachedTokens (accountKeyOf sa) = none →
      mint sa = Except.ok td →
      getAccessToken mint refreshMint T (fuel + 1) st =
        (TokenOutcome.ok td.access_token,
         { st with cachedTokens :=
             mapSet st.cachedTokens (accountKeyOf sa) (mintedEntry T td) },
         [sa]) ∧
      mapGet (mapSet st.cachedTokens (accountKeyOf sa) (mintedEntry T td))
          (accountKeyOf sa) =
        some { token := td.access_token,
               expiresAt := T + tokenLifetimeSeconds td * 1000 }) ∧
    (∀ (td : TokenData) (L : Int), td.expires_in = some L → L ≠ 0 →
      tokenLifetimeSeconds td = L) ∧
    (∀ td : TokenData, td.expires_in = none ∨ td.expires_in = some 0 →
      tokenLifetimeSeconds td = 3600) ∧
    (∀ (st : ClientState) (sa : ServiceAccount) (c : CachedToken) (now : Int) (fuel : Nat),
      getCurrentServiceAccount st = some sa →
      mapGet st.cachedTokens (accountKeyOf sa) = some c →
      (getAccessToken mint refreshMint now (fuel + 1) st = (TokenOutcome.ok c.token, st, []) ↔
        now + 60000 < c.expiresAt)) ∧
    (∀ (st : ClientState) (sa : ServiceAccount) (c : CachedToken) (T L : Int) (fuel : Nat),
      getCurrentServiceAccount st = some sa →
      mapGet st.cachedTokens (accountKeyOf sa) = some c →
      c.expiresAt = T + L * 1000 →
      getAccessToken mint refreshMint (T + (L - 61) * 1000) (fuel + 1) st =
        (TokenOutcome.ok c.token, st, []) ∧
      ¬(getAccessToken mint refreshMint (T + (L - 59) * 1000) (fuel + 1) st =
        (TokenOutcome.ok c.token, st, []))) := by
  have hserve : ∀ (st : ClientState) (sa : ServiceAccount) (c : CachedToken)
      (now : Int) (fuel : Nat),
      getCurrentServiceAccount st = some sa →
      mapGet st.cachedTokens (accountKeyOf sa) = some c →
      (getAccessToken mint refreshMint now (fuel + 1) st = (TokenOutcome.ok c.token, st, []) ↔
        now + 60000 < c.expiresAt) := by
    intro st sa c now fuel hcur hget
    constructor
    · intro heq
      by_contra hlt
      have hmiss : cacheLookup now st.cachedTokens (accountKeyOf sa) = none := by
        unfold cacheLookup
        rw [hget]
        exact if_neg hlt
      cases hmint : mint sa with
      | ok td =>
        have h2 := getAccessToken_mint_ok mint refreshMint now fuel st sa td hcur hmiss hmint
        rw [h2] at heq
        have := congrArg (fun r => r.2.2) heq
        simp at this
      | error e =>
        by_cases hlen : st.serviceAccounts.length > 1
        · have h2 := getAccessToken_mint_error_multi mint refreshMint now fuel st sa e
            hcur hmiss hmint hlen
          rw [h2] at heq
          have := congrArg (fun r => r.2.2) heq
          simp at this
        · have h2 := getAccessToken_mint_error_single mint refreshMint now fuel st sa e
            hcur hmiss hmint hlen
          rw [h2] at heq
          have := congrArg (fun r => r.2.2) heq
          simp at this
    · intro hvalid
      have hhit : cacheLookup now st.cachedTokens (accountKeyOf sa) = some c.token := by
        unfold cacheLookup
        rw [hget]
        exact if_pos hvalid
      exact getAccessToken_cache_hit mint refreshMint now fuel st sa c.token hcur hhit
  refine ⟨?_, ?_, ?_, hserve, ?_⟩
  · intro st sa T td fuel hcur hmiss hmint
    exact ⟨getAccessToken_mint_ok mint refreshMint T fuel st sa td hcur hmiss hmint,
      mapGet_mapSet_self _ _ _⟩
  · intro td L hL hLnz
    unfold tokenLifetimeSeconds
    rw [hL]
    exact if_neg hLnz
  · intro td hor
    unfold tokenLifetimeSeconds
    rcases hor with h0 | h0 <;> rw [h0]
    rfl
  · intro st sa c T L fuel hcur hget hexp
    constructor
    · exact (hserve st sa c (T + (L - 61) * 1000) fuel hcur hget).2 (by rw [hexp]; omega)
    · intro heq
      have := (hserve st sa c (T + (L - 59) * 1000) fuel hcur hget).1 heq
      rw [hexp] at this
      omega

/-- The C3 witness cache entry: minted at `T = 0` with `L = 3600`. -/
def c3Entry : CachedToken := { token := "t0", expiresAt := 0 + 3600 * 1000 }

/-- The C3 witness state: one account with a cached token `c3Entry`. -/
def c3CachedState : ClientState :=
  { serviceAccounts := [sampleAccountA],
    cachedTokens := [("a@example.com", c3Entry)] }

/-- The C3 witness mint oracle. -/
def c3MintW : ServiceAccount → Except String TokenData :=
  fun _ => Except.ok { access_token := "tok", expires_in := some 3600 }

/-- C3 witness: concrete account, mint and times — a token minted at
`T = 0` with `L = 3600` is stored with `expiresAt = 3600000`, its nonzero
lifetime is kept as is, and a cached token with that expiry is served at
`(3600 - 61)` seconds and refused at `(3600 - 59)` seconds. -/
theorem c3_expiry_and_safety_margin_witness :
    (getAccessToken c3MintW (Except.error "no oauth") 0 1
        { serviceAccounts := [sampleAccountA] } =
      (TokenOutcome.ok "tok",
       { serviceAccounts := [sampleAccountA],
         cachedTokens := [("a@example.com",
           mintedEntry 0 { access_token := "tok", expires_in := some 3600 })] },
       [sampleAccountA])) ∧
    tokenLifetimeSeconds { access_token := "tok", expires_in := some 3600 } = 3600 ∧
    tokenLifetimeSeconds { access_token := "tok", expires_in := none } = 3600 ∧
    (getAccessToken c3MintW (Except.error "no oauth") ((0 : Int) + (3600 - 61) * 1000) 1
        c3CachedState =
      (TokenOutcome.ok "t0", c3CachedState, [])) ∧
    ¬(getAccessToken c3MintW (Except.error "no oauth") ((0 : Int) + (3600 - 59) * 1000) 1
        c3CachedState =
      (TokenOutcome.ok "t0", c3CachedState, [])) := by
  have h := c3_expiry_and_safety_margin c3MintW (Except.error "no oauth")
  have h3 := h.2.2.2.2 c3CachedState sampleAccountA c3Entry 0 3600 0
    rfl (by simp [c3CachedState, sampleAccountA, accountKeyOf, mapGet]) rfl
  exact ⟨(h.1 { serviceAccounts := [sampleAccountA] } sampleAccountA 0
      { access_token := "tok", expires_in := some 3600 } 0 rfl rfl rfl).1,
    h.2.1 { access_token := "tok", expires_in := some 3600 } 3600 rfl (by decide),
    h.2.2.1 { access_token := "tok", expires_in := none } (Or.inl rfl),
    h3.1, h3.2⟩

/-! C2: one permanently failing identity among N is skipped by rotation. -/

/-- C2: a Credential Set of size N at least 2 with exactly one permanently
failing identity and no valid cached token: `getAccessToken()` returns the
token of a non-failing identity, makes at most N mint attempts, mints the
failing record at most once, and when the failing record was minted the
final cursor stands one past its position modulo N. -/
theorem c2_single_failing_identity_rotation
    (mint : ServiceAccount → Except String TokenData)
    (refreshMint : Except String TokenData) (now : Int)
    (sas : List ServiceAccount) (cache : List (String × CachedToken))
    (k j : Nat) (e : String) (fuel : Nat)
    (hN : 2 ≤ sas.length) (hj : j < sas.length)
    (hfail : mint (sas.get ⟨j, hj⟩) = Except.error e)
    (hok : ∀ (i : Nat) (hi : i < sas.length), i ≠ j →
      ∃ td, mint (sas.get ⟨i, hi⟩) = Except.ok td)
    (hcache : ∀ key c, mapGet cache key = some c → ¬(now + 60000 < c.expiresAt))
    (hfuel : 2 ≤ fuel) :
    ∃ (i : Nat) (hi : i < sas.length) (td : TokenData),
      i ≠ j ∧ mint (sas.get ⟨i, hi⟩) = Except.ok td ∧
      (getAccessToken mint refreshMint now fuel
        { serviceAccounts := sas, currentServiceAccountIndex := k,
          cachedTokens := cache }).1 = TokenOutcome.ok td.access_token ∧
      (getAccessToken mint refreshMint now fuel
        { serviceAccounts := sas, currentServiceAccountIndex := k,
          cachedTokens := cache }).2.2.length ≤ sas.length ∧
      (getAccessToken mint refreshMint now fuel
        { serviceAccounts := sas, currentServiceAccountIndex := k,
          cachedTokens := cache }).2.2.count (sas.get ⟨j, hj⟩) ≤ 1 ∧
      (sas.get ⟨j, hj⟩ ∈ (getAccessToken mint refreshMint now fuel
          { serviceAccounts := sas, currentServiceAccountIndex := k,
            cachedTokens := cache }).2.2 →
        (getAccessToken mint refreshMint now fuel
          { serviceAccounts := sas, currentServiceAccountIndex := k,
            cachedTokens := cache }).2.1.currentServiceAccountIndex % sas.length =
          (j + 1) % sas.length) := by
  obtain ⟨f, rfl⟩ : ∃ f, fuel = f + 2 := ⟨fuel - 2, by omega⟩
  have hpos : 0 < sas.length := by omega
  have hlenne : sas.length ≠ 0 := by omega
  set st : ClientState :=
    { serviceAccounts := sas, currentServiceAccountIndex := k, cachedTokens := cache }
    with hst
  have hstlen : st.serviceAccounts.length ≠ 0 := hlenne
  have hm : k % sas.length < sas.length := Nat.mod_lt _ hpos
  have hcur := getCurrentServiceAccount_eq st hstlen
  have hmiss : ∀ sa : ServiceAccount,
      cacheLookup now st.cachedTokens (accountKeyOf sa) = none := fun sa =>
    cacheLookup_eq_none now cache (accountKeyOf sa) (hcache (accountKeyOf sa))
  have hcurA : getCurrentServiceAccount st = some (sas.get ⟨k % sas.length, hm⟩) := hcur
  by_cases hcase : k % sas.length = j
  · -- the cursor points at the failing identity: one failed mint, rotate, succeed
    have hgj : sas.get ⟨k % sas.length, hm⟩ = sas.get ⟨j, hj⟩ := by
      congr 1
      exact Fin.ext hcase
    rw [hgj] at hcurA
    have hstep1 := getAccessToken_mint_error_multi mint refreshMint now (f + 1) st
      (sas.get ⟨j, hj⟩) e hcurA (hmiss _) hfail (by simpa [hst] using hN)
    -- the rotated state
    have hrot : rotateServiceAccount st =
        { serviceAccounts := sas, currentServiceAccountIndex := (k + 1) % sas.length,
          cachedTokens := cache } := by
      unfold rotateServiceAccount
      rw [if_pos (by simpa [hst] using hN)]
    set st2 : ClientState :=
      { serviceAccounts := sas, currentServiceAccountIndex := (k + 1) % sas.length,
        cachedTokens := cache } with hst2
    rw [hrot] at hstep1
    -- the new cursor position
    have hmod : (k + 1) % sas.length % sas.length = (k + 1) % sas.length :=
      Nat.mod_eq_of_lt (Nat.mod_lt _ hpos)
    have h1n : 1 % sas.length = 1 := Nat.mod_eq_of_lt (by omega)
    have hnext : (k + 1) % sas.length = (j + 1) % sas.length := by
      rw [Nat.add_mod, h1n, hcase]
    have hne2 : (j + 1) % sas.length ≠ j := by
      rcases Nat.lt_or_ge (j + 1) sas.length with hlt | hge
      · rw [Nat.mod_eq_of_lt hlt]; omega
      · have hj1 : j + 1 = sas.length := by omega
        rw [hj1, Nat.mod_self]; omega
    have hm2 : (k + 1) % sas.length < sas.length := Nat.mod_lt _ hpos
    have hcur2 : getCurrentServiceAccount st2 =
        some (sas.get ⟨(k + 1) % sas.length % sas.length, Nat.mod_lt _ hpos⟩) :=
      getCurrentServiceAccount_eq st2 hlenne
    have hget2 : sas.get ⟨(k + 1) % sas.length % sas.length, Nat.mod_lt _ hpos⟩ =
        sas.get ⟨(k + 1) % sas.length, hm2⟩ := by
      congr 1
      exact Fin.ext hmod
    rw [hget2] at hcur2
    have hne2k : (k + 1) % sas.length ≠ j := by rw [hnext]; exact hne2
    obtain ⟨td, htd⟩ := hok ((k + 1) % sas.length) hm2 hne2k
    have hstep2 := getAccessToken_mint_ok mint refreshMint now f st2
      (sas.get ⟨(k + 1) % sas.length, hm2⟩) td hcur2 (hmiss _) htd
    have hdistinct : sas.get ⟨(k + 1) % sas.length, hm2⟩ ≠ sas.get ⟨j, hj⟩ := by
      intro heq
      rw [heq, hfail] at htd
      exact Except.noConfusion htd
    simp only [List.get_eq_getElem] at hdistinct
    refine ⟨(k + 1) % sas.length, hm2, td, hne2k, htd, ?_, ?_, ?_, ?_⟩
    · rw [hstep1, hstep2]
    · rw [hstep1, hstep2]
      simpa using by omega
    · rw [hstep1, hstep2]
      simp [List.count_cons, hdistinct]
    · intro _
      rw [hstep1, hstep2]
      simpa using hnext
  · -- the cursor points at a working identity: a single successful mint
    obtain ⟨td, htd⟩ := hok (k % sas.length) hm hcase
    have hstep := getAccessToken_mint_ok mint refreshMint now (f + 1) st
      (sas.get ⟨k % sas.length, hm⟩) td hcurA (hmiss _) htd
    have hdistinct : sas.get ⟨k % sas.length, hm⟩ ≠ sas.get ⟨j, hj⟩ := by
      intro heq
      rw [heq, hfail] at htd
      exact Except.noConfusion htd
    simp only [List.get_eq_getElem] at hdistinct
    refine ⟨k % sas.length, hm, td, hcase, htd, ?_, ?_, ?_, ?_⟩
    · rw [hstep]
    · rw [hstep]
      simpa using by omega
    · rw [hstep]
      simp [List.count_cons, hdistinct]
    · intro hmem
      rw [hstep] at hmem
      simp at hmem
      exact absurd hmem.symm hdistinct

/-- C2 witness failing record. -/
def c2BadW : ServiceAccount := { client_email := some "bad@example.com" }

/-- C2 witness working record. -/
def c2GoodW : ServiceAccount := { client_email := some "good@example.com" }

/-- C2 witness mint oracle: permanently fails for the bad record only. -/
def c2MintW : ServiceAccount → Except String TokenData :=
  fun sa =>
    if sa.client_email = some "bad@example.com" then Except.error "invalid_grant"
    else Except.ok { access_token := "tokG", expires_in := some 3600 }

/-- C2 witness: the two-account set `[bad, good]` with the cursor on the
failing record, cold cache, fuel 2. -/
theorem c2_single_failing_identity_rotation_witness :
    ∃ (i : Nat) (hi : i < ([c2BadW, c2GoodW] : List ServiceAccount).length) (td : TokenData),
      i ≠ 0 ∧ c2MintW (([c2BadW, c2GoodW] : List ServiceAccount).get ⟨i, hi⟩) = Except.ok td ∧
      (getAccessToken c2MintW (Except.error "no oauth") 0 2
        { serviceAccounts := [c2BadW, c2GoodW], currentServiceAccountIndex := 0,
          cachedTokens := [] }).1 = TokenOutcome.ok td.access_token ∧
      (getAccessToken c2MintW (Except.error "no oauth") 0 2
        { serviceAccounts := [c2BadW, c2GoodW], currentServiceAccountIndex := 0,
          cachedTokens := [] }).2.2.length ≤ ([c2BadW, c2GoodW] : List ServiceAccount).length ∧
      (getAccessToken c2MintW (Except.error "no oauth") 0 2
        { serviceAccounts := [c2BadW, c2GoodW], currentServiceAccountIndex := 0,
          cachedTokens := [] }).2.2.count
        (([c2BadW, c2GoodW] : List ServiceAccount).get ⟨0, by decide⟩) ≤ 1 ∧
      (([c2BadW, c2GoodW] : List ServiceAccount).get ⟨0, by decide⟩ ∈
          (getAccessToken c2MintW (Except.error "no oauth") 0 2
            { serviceAccounts := [c2BadW, c2GoodW], currentServiceAccountIndex := 0,
              cachedTokens := [] }).2.2 →
        (getAccessToken c2MintW (Except.error "no oauth") 0 2
          { serviceAccounts := [c2BadW, c2GoodW], currentServiceAccountIndex := 0,
            cachedTokens := [] }).2.1.currentServiceAccountIndex %
            ([c2BadW, c2GoodW] : List ServiceAccount).length =
          (0 + 1) % ([c2BadW, c2GoodW] : List ServiceAccount).length) :=
  c2_single_failing_identity_rotation c2MintW (Except.error "no oauth") 0
    [c2BadW, c2GoodW] [] 0 0 "invalid_grant" 2 (by decide) (by decide) rfl
    (fun i hi hne => by
      have hi2 : i < 2 := by simpa using hi
      interval_cases i
      · exact absurd rfl hne
      · exact ⟨{ access_token := "tokG", expires_in := some 3600 }, rfl⟩)
    (fun key c hc => by simp [mapGet] at hc)
    (by decide)

/-! C4: resolution priority of the bundled collection. -/

/-- Shared helper: a bundled doc carrying an `accounts` array (empty or
not) resolves exclusively, without touching the URL or the environment. -/
theorem loadServiceAccounts_bundled_wins
    (parseJson : String → Option ServiceAccount) (cfg : SourceConfig)
    (doc : AccountsDoc) (accs : List ServiceAccount)
    (hb : cfg.bundled = some doc) (ha : doc.accounts = some accs) :
    loadServiceAccounts parseJson cfg =
      { serviceAccounts := accs, urlFetched := false, envConsulted := false } := by
  simp only [loadServiceAccounts, hb, ha]

/-- The C4 counterexample configuration: the bundled collection carries an
empty `accounts` array while the remote URL would deliver one record. -/
def c4Config : SourceConfig :=
  { bundled := some { accounts := some [] },
    serviceAccountsUrl := some "https://creds.example/accounts.json",
    urlResponse := some { accounts := some [sampleAccountA] } }

/-- C4 counterexample: with an empty bundled `accounts` array, the first
source yielding a non-empty accounts collection is the remote URL, yet
resolution returns the empty bundled set and never fetches the URL — the
claim's "first source that yields a non-empty accounts collection is used"
fails on this input (a JavaScript array is truthy even when empty). -/
theorem c4_counterexample_empty_bundled_array :
    loadServiceAccounts (fun _ => none) c4Config =
      { serviceAccounts := [], urlFetched := false, envConsulted := false } ∧
    c4Config.urlResponse = some { accounts := some [sampleAccountA] } ∧
    ([] : List ServiceAccount) ≠ [sampleAccountA] := by
  refine ⟨rfl, rfl, by simp⟩

/-- C4 (amended): the first source that yields an `accounts` array — even
an empty one — is used exclusively: a bundled collection with an `accounts`
array becomes the Credential Set, the remote URL is never fetched and the
environment-variable and legacy methods are never consulted. -/
theorem c4_bundled_collection_priority
    (parseJson : String → Option ServiceAccount) (cfg : SourceConfig)
    (doc : AccountsDoc) (accs : List ServiceAccount)
    (hb : cfg.bundled = some doc) (ha : doc.accounts = some accs) :
    loadServiceAccounts parseJson cfg =
      { serviceAccounts := accs, urlFetched := false, envConsulted := false } :=
  loadServiceAccounts_bundled_wins parseJson cfg doc accs hb ha

/-- The C4 witness configuration: a non-empty bundled collection plus a
configured remote URL with different content. -/
def c4ConfigB : SourceConfig :=
  { bundled := some { accounts := some [sampleAccountA] },
    serviceAccountsUrl := some "https://creds.example/accounts.json",
    urlResponse := some { accounts := some [sampleAccountB] } }

/-- C4 witness: the bundled record set wins and no later source is touched. -/
theorem c4_bundled_collection_priority_witness :
    loadServiceAccounts (fun _ => none) c4ConfigB =
      { serviceAccounts := [sampleAccountA], urlFetched := false, envConsulted := false } :=
  c4_bundled_collection_priority (fun _ => none) c4ConfigB
    { accounts := some [sampleAccountA] } [sampleAccountA] rfl rfl

/-! C6: how often each credential source is queried under concurrency. -/

/-- One when a caller has completed its `loadServiceAccounts()` run. -/
def pcDone : ProcPc → Nat
  | ProcPc.done => 1
  | _ => 0

/-- One when the bundled import promise was created. -/
def startedCount : Bool → Nat
  | true => 1
  | false => 0

theorem pcDone_le_one (pc : ProcPc) : pcDone pc ≤ 1 := by
  cases pc <;> simp [pcDone]

/-- The run invariant of the two-caller isolate: the bundled import starts
at most once (the module-level promise cell is check-and-set), each caller
issues at most one URL fetch, and no fetch at all happens when the bundled
doc carries an accounts array. -/
def isolateInv (cfg : SourceConfig) (s : IsolateState) : Prop :=
  s.importCount = startedCount s.importStarted ∧
  s.urlFetchCount ≤ pcDone s.p1.pc + pcDone s.p2.pc ∧
  ((∃ doc accs, cfg.bundled = some doc ∧ doc.accounts = some accs) → s.urlFetchCount = 0)

theorem procStep_done (parseJson : String → Option ServiceAccount) (cfg : SourceConfig)
    (s : IsolateState) (p : ProcState) (h : p.pc = ProcPc.done) :
    procStep parseJson cfg s p = (s, p) := by
  unfold procStep
  rw [h]

theorem procStep_start_loaded (parseJson : String → Option ServiceAccount)
    (cfg : SourceConfig) (s : IsolateState) (p : ProcState)
    (h : p.pc = ProcPc.start) (hl : s.loaded = true) :
    procStep parseJson cfg s p =
      (s, { p with pc := ProcPc.done, observed := some s.accounts }) := by
  unfold procStep
  rw [h]
  simp [hl]

theorem procStep_start_cold (parseJson : String → Option ServiceAccount)
    (cfg : SourceConfig) (s : IsolateState) (p : ProcState)
    (h : p.pc = ProcPc.start) (hl : s.loaded = false) :
    procStep parseJson cfg s p =
      ((if s.importStarted then s
        else { s with importStarted := true, importCount := s.importCount + 1 }),
       { p with pc := ProcPc.awaitBundled }) := by
  unfold procStep
  rw [h]
  simp [hl]

theorem procStep_await_pending (parseJson : String → Option ServiceAccount)
    (cfg : SourceConfig) (s : IsolateState) (p : ProcState)
    (h : p.pc = ProcPc.awaitBundled) (hr : s.bundledResolved = false) :
    procStep parseJson cfg s p = (s, p) := by
  unfold procStep
  rw [h]
  simp [hr]

theorem procStep_await_resolved (parseJson : String → Option ServiceAccount)
    (cfg : SourceConfig) (s : IsolateState) (p : ProcState)
    (h : p.pc = ProcPc.awaitBundled) (hr : s.bundledResolved = true) :
    procStep parseJson cfg s p =
      ({ s with
          accounts := (loadServiceAccounts parseJson cfg).serviceAccounts,
          loaded := true,
          urlFetchCount := s.urlFetchCount +
            (if (loadServiceAccounts parseJson cfg).urlFetched then 1 else 0) },
       { p with pc := ProcPc.done,
                observed := some (loadServiceAccounts parseJson cfg).serviceAccounts }) := by
  unfold procStep
  rw [h]
  simp [hr]

theorem isolateInv_step (parseJson : String → Option ServiceAccount)
    (cfg : SourceConfig) (s : IsolateState) (e : SchedEv)
    (h : isolateInv cfg s) : isolateInv cfg (schedStep parseJson cfg s e) := by
  obtain ⟨h1, h2, h3⟩ := h
  have hbundfetch : (∃ doc accs, cfg.bundled = some doc ∧ doc.accounts = some accs) →
      (loadServiceAccounts parseJson cfg).urlFetched = false := by
    rintro ⟨doc, accs, hb, ha⟩
    rw [loadServiceAccounts_bundled_wins parseJson cfg doc accs hb ha]
  have hone : (if (loadServiceAccounts parseJson cfg).urlFetched then (1 : Nat) else 0) ≤ 1 := by
    split <;> omega
  cases e with
  | resolveBundled =>
    show isolateInv cfg (if s.importStarted then { s with bundledResolved := true } else s)
    split
    · exact ⟨h1, h2, h3⟩
    · exact ⟨h1, h2, h3⟩
  | step1 =>
    show isolateInv cfg
      ({ (procStep parseJson cfg s s.p1).1 with p1 := (procStep parseJson cfg s s.p1).2 })
    cases hpc : s.p1.pc with
    | done =>
      rw [procStep_done parseJson cfg s s.p1 hpc]
      exact ⟨h1, h2, h3⟩
    | start =>
      rw [hpc] at h2
      simp only [pcDone] at h2
      cases hl : s.loaded with
      | true =>
        rw [procStep_start_loaded parseJson cfg s s.p1 hpc hl]
        refine ⟨h1, ?_, h3⟩
        show s.urlFetchCount ≤ pcDone ProcPc.done + pcDone s.p2.pc
        simp only [pcDone]
        omega
      | false =>
        rw [procStep_start_cold parseJson cfg s s.p1 hpc hl]
        cases hi : s.importStarted with
        | true =>
          rw [if_pos rfl]
          refine ⟨h1, ?_, h3⟩
          show s.urlFetchCount ≤ pcDone ProcPc.awaitBundled + pcDone s.p2.pc
          simp only [pcDone]
          omega
        | false =>
          rw [if_neg Bool.false_ne_true]
          rw [hi] at h1
          simp only [startedCount] at h1
          refine ⟨?_, ?_, h3⟩
          · show s.importCount + 1 = startedCount true
            simp only [startedCount]
            omega
          · show s.urlFetchCount ≤ pcDone ProcPc.awaitBundled + pcDone s.p2.pc
            simp only [pcDone]
            omega
    | awaitBundled =>
      rw [hpc] at h2
      simp only [pcDone] at h2
      cases hr : s.bundledResolved with
      | false =>
        rw [procStep_await_pending parseJson cfg s s.p1 hpc hr]
        refine ⟨h1, ?_, h3⟩
        rw [hpc]
        simp only [pcDone]
        omega
      | true =>
        rw [procStep_await_resolved parseJson cfg s s.p1 hpc hr]
        refine ⟨h1, ?_, ?_⟩
        · show s.urlFetchCount + _ ≤ pcDone ProcPc.done + pcDone s.p2.pc
          simp only [pcDone]
          omega
        · intro hbund
          have hfz := h3 hbund
          show s.urlFetchCount + _ = 0
          rw [hbundfetch hbund, hfz]
          simp
  | step2 =>
    show isolateInv cfg
      ({ (procStep parseJson cfg s s.p2).1 with p2 := (procStep parseJson cfg s s.p2).2 })
    cases hpc : s.p2.pc with
    | done =>
      rw [procStep_done parseJson cfg s s.p2 hpc]
      exact ⟨h1, h2, h3⟩
    | start =>
      rw [hpc] at h2
      simp only [pcDone] at h2
      cases hl : s.loaded with
      | true =>
        rw [procStep_start_loaded parseJson cfg s s.p2 hpc hl]
        refine ⟨h1, ?_, h3⟩
        show s.urlFetchCount ≤ pcDone s.p1.pc + pcDone ProcPc.done
        simp only [pcDone]
        omega
      | false =>
        rw [procStep_start_cold parseJson cfg s s.p2 hpc hl]
        cases hi : s.importStarted with
        | true =>
          rw [if_pos rfl]
          refine ⟨h1, ?_, h3⟩
          show s.urlFetchCount ≤ pcDone s.p1.pc + pcDone ProcPc.awaitBundled
          simp only [pcDone]
          omega
        | false =>
          rw [if_neg Bool.false_ne_true]
          rw [hi] at h1
          simp only [startedCount] at h1
          refine ⟨?_, ?_, h3⟩
          · show s.importCount + 1 = startedCount true
            simp only [startedCount]
            omega
          · show s.urlFetchCount ≤ pcDone s.p1.pc + pcDone ProcPc.awaitBundled
            simp only [pcDone]
            omega
    | awaitBundled =>
      rw [hpc] at h2
      simp only [pcDone] at h2
      cases hr : s.bundledResolved with
      | false =>
        rw [procStep_await_pending parseJson cfg s s.p2 hpc hr]
        refine ⟨h1, ?_, h3⟩
        rw [hpc]
        simp only [pcDone]
        omega
      | true =>
        rw [procStep_await_resolved parseJson cfg s s.p2 hpc hr]
        refine ⟨h1, ?_, ?_⟩
        · show s.urlFetchCount + _ ≤ pcDone s.p1.pc + pcDone ProcPc.done
          simp only [pcDone]
          omega
        · intro hbund
          have hfz := h3 hbund
          show s.urlFetchCount + _ = 0
          rw [hbundfetch hbund, hfz]
          simp

theorem isolateInv_run (parseJson : String → Option ServiceAccount)
    (cfg : SourceConfig) (evs : List SchedEv) :
    isolateInv cfg (runSched parseJson cfg evs) := by
  have init : isolateInv cfg {} := ⟨rfl, by simp [pcDone], fun _ => rfl⟩
  unfold runSched
  generalize hs : ({} : IsolateState) = s0 at init
  clear hs
  induction evs generalizing s0 with
  | nil => exact init
  | cons e rest ih =>
    exact ih _ (isolateInv_step parseJson cfg s0 e init)

/-- The C6 counterexample configuration: no bundled module, a configured
remote URL delivering one record. -/
def c6Config : SourceConfig :=
  { serviceAccountsUrl := some "https://creds.example/accounts.json",
    urlResponse := some { accounts := some [sampleAccountA] } }

/-- The C6 racing schedule: both callers pass the `accountsLoaded` check
and await the bundled import before it settles; each then resumes. -/
def c6Race : List SchedEv :=
  [SchedEv.step1, SchedEv.step2, SchedEv.resolveBundled, SchedEv.step1, SchedEv.step2]

/-- C6 counterexample: two callers racing into a first-time resolution both
fetch the remote URL — the URL source is queried twice in one isolate,
refuting "no credential source is queried more than once" (both callers do
observe the same resolved Credential Set). -/
theorem c6_counterexample_double_url_fetch :
    (runSched (fun _ => none) c6Config c6Race).urlFetchCount = 2 ∧
    ¬((runSched (fun _ => none) c6Config c6Race).urlFetchCount ≤ 1) ∧
    (runSched (fun _ => none) c6Config c6Race).p1.observed = some [sampleAccountA] ∧
    (runSched (fun _ => none) c6Config c6Race).p2.observed = some [sampleAccountA] := by
  refine ⟨rfl, by decide, rfl, rfl⟩

/-- C6 (amended): the bundled import itself runs at most once per isolate —
the in-flight import promise, even a failed one, is shared by every
awaiter — and a bundled collection with an accounts array stops any URL
fetch; but resolution as a whole is not single-flight: with two concurrent
callers the remote URL may be fetched up to twice (once per caller),
not at most once. -/
theorem c6_resolution_concurrency_bounds
    (parseJson : String → Option ServiceAccount) (cfg : SourceConfig)
    (evs : List SchedEv) :
    (runSched parseJson cfg evs).importCount ≤ 1 ∧
    (runSched parseJson cfg evs).urlFetchCount ≤ 2 ∧
    ((∃ doc accs, cfg.bundled = some doc ∧ doc.accounts = some accs) →
      (runSched parseJson cfg evs).urlFetchCount = 0) := by
  obtain ⟨h1, h2, h3⟩ := isolateInv_run parseJson cfg evs
  refine ⟨?_, ?_, h3⟩
  · rw [h1]
    cases (runSched parseJson cfg evs).importStarted <;> simp [startedCount]
  · have b1 := pcDone_le_one (runSched parseJson cfg evs).p1.pc
    have b2 := pcDone_le_one (runSched parseJson cfg evs).p2.pc
    omega

/-- C6 witness: with a bundled collection present, no schedule fetches the
URL, and the import promise is created at most once. -/
theorem c6_resolution_concurrency_bounds_witness :
    (runSched (fun _ => none) c4ConfigB c6Race).importCount ≤ 1 ∧
    (runSched (fun _ => none) c4ConfigB c6Race).urlFetchCount ≤ 2 ∧
    (runSched (fun _ => none) c4ConfigB c6Race).urlFetchCount = 0 :=
  ⟨(c6_resolution_concurrency_bounds (fun _ => none) c4ConfigB c6Race).1,
   (c6_resolution_concurrency_bounds (fun _ => none) c4ConfigB c6Race).2.1,
   (c6_resolution_concurrency_bounds (fun _ => none) c4ConfigB c6Race).2.2
     ⟨{ accounts := some [sampleAccountA] }, [sampleAccountA], rfl, rfl⟩⟩

/-! C9: the page-size clamp. -/

/-- C9 counterexample: a requested page size of 0 is below 1, so the claim
says it is sent as 1; but `pageSize || 24` treats 0 as falsy, so the code
sends the default 24 instead. -/
theorem c9_counterexample_zero_page_size :
    listFilesSafeSize { pageSize := some 0 } = 24 ∧
    min (max (0 : Int) 1) MAX_LIST_PAGE_SIZE = 1 ∧
    (24 : Int) ≠ 1 := by
  refine ⟨by decide, by decide, by decide⟩

/-- C9 (amended): the sent page size always lies in `[1, 100]`; a nonzero
request is clamped to `[1, 100]` (above 100 → 100, nonzero below 1 → 1),
while a request of exactly 0 — like an omitted one — is falsy and is
treated as the default 24 rather than clamped to 1. -/
theorem c9_page_size_clamp :
    (∀ o : ListOptions, 1 ≤ listFilesSafeSize o ∧ listFilesSafeSize o ≤ 100) ∧
    (∀ v : Int, v ≠ 0 →
      listFilesSafeSize { pageSize := some v } = min (max v 1) 100) ∧
    (∀ v : Int, 100 < v → listFilesSafeSize { pageSize := some v } = 100) ∧
    (∀ v : Int, v < 1 → v ≠ 0 → listFilesSafeSize { pageSize := some v } = 1) ∧
    listFilesSafeSize { pageSize := some 0 } = 24 ∧
    listFilesSafeSize {} = 24 := by
  have habs : ∀ o : ListOptions, 1 ≤ listFilesSafeSize o ∧ listFilesSafeSize o ≤ 100 := by
    intro o
    unfold listFilesSafeSize MAX_LIST_PAGE_SIZE
    constructor
    · apply le_min _ (by omega)
      exact le_max_right _ 1
    · exact min_le_right _ 100
  refine ⟨habs, ?_, ?_, ?_, by decide, by decide⟩
  · intro v hv
    unfold listFilesSafeSize MAX_LIST_PAGE_SIZE
    dsimp only
    rw [if_neg hv]
  · intro v hv
    unfold listFilesSafeSize MAX_LIST_PAGE_SIZE
    dsimp only
    rw [if_neg (by omega : ¬v = 0)]
    rw [max_eq_left (by omega), min_eq_right (by omega)]
  · intro v hv hvz
    unfold listFilesSafeSize MAX_LIST_PAGE_SIZE
    dsimp only
    rw [if_neg hvz]
    rw [max_eq_right (by omega), min_eq_left (by omega)]

/-- C9 witness: requests of 1000 and -5 are clamped to 100 and 1. -/
theorem c9_page_size_clamp_witness :
    ((100 : Int) < 1000 ∧ listFilesSafeSize { pageSize := some 1000 } = 100) ∧
    ((-5 : Int) < 1 ∧ (-5 : Int) ≠ 0 ∧ listFilesSafeSize { pageSize := some (-5) } = 1) :=
  ⟨⟨by decide, c9_page_size_clamp.2.2.1 1000 (by decide)⟩,
   ⟨by decide, by decide, c9_page_size_clamp.2.2.2.1 (-5) (by decide) (by decide)⟩⟩

/-! C5: completeness and error isolation of the environment-variable
method. -/

theorem numberedScan_mono (parseJson : String → Option ServiceAccount)
    (env : EnvConfig) :
    ∀ (fuel i : Nat) (acc : List ServiceAccount),
      ∃ rest, numberedScan parseJson env fuel i acc = acc ++ rest := by
  intro fuel
  induction fuel with
  | zero => intro i acc; exact ⟨[], by simp [numberedScan]⟩
  | succ n ih =>
    intro i acc
    unfold numberedScan
    cases hv : env.numbered i with
    | some v =>
      dsimp only
      by_cases hve : v = ""
      · rw [if_pos hve]
        by_cases hbrk : i ≠ 0 ∧ acc = []
        · rw [if_pos hbrk]; exact ⟨[], by simp⟩
        · rw [if_neg hbrk]; exact ih (i + 1) acc
      · rw [if_neg hve]
        cases hp : parseJson v with
        | some sa =>
          dsimp only
          obtain ⟨rest, hrest⟩ := ih (i + 1) (acc ++ [sa])
          exact ⟨[sa] ++ rest, by rw [hrest, List.append_assoc]⟩
        | none =>
          dsimp only
          exact ih (i + 1) acc
    | none =>
      dsimp only
      by_cases hbrk : i ≠ 0 ∧ acc = []
      · rw [if_pos hbrk]; exact ⟨[], by simp⟩
      · rw [if_neg hbrk]; exact ih (i + 1) acc

theorem numberedScan_mem (parseJson : String → Option ServiceAccount)
    (env : EnvConfig) :
    ∀ (fuel i t : Nat) (acc : List ServiceAccount) (v : String) (sa : ServiceAccount),
      i ≤ t → t < i + fuel → env.numbered t = some v → v ≠ "" →
      parseJson v = some sa →
      (∀ jj, 1 ≤ jj → i ≤ jj → jj < t → jsTruthy (env.numbered jj) = true) →
      sa ∈ numberedScan parseJson env fuel i acc := by
  intro fuel
  induction fuel with
  | zero => intro i t acc v sa hit hlt; omega
  | succ n ih =>
    intro i t acc v sa hit hlt ht hv hp hpresent
    by_cases hcase : i = t
    · subst hcase
      unfold numberedScan
      rw [ht]
      dsimp only
      rw [if_neg hv, hp]
      dsimp only
      obtain ⟨rest, hrest⟩ := numberedScan_mono parseJson env n (i + 1) (acc ++ [sa])
      rw [hrest]
      simp
    · have hilt : i < t := by omega
      unfold numberedScan
      cases hj : env.numbered i with
      | some v0 =>
        dsimp only
        by_cases hv0 : v0 = ""
        · rw [if_pos hv0]
          have hi0 : i = 0 := by
            by_contra hne
            have := hpresent i (by omega) (le_refl i) hilt
            rw [hj, hv0] at this
            simp [jsTruthy] at this
          rw [if_neg (by simp [hi0])]
          exact ih (i + 1) t acc v sa (by omega) (by omega) ht hv hp
            (fun jj h1 h2 h3 => hpresent jj h1 (by omega) h3)
        · rw [if_neg hv0]
          cases hp0 : parseJson v0 with
          | some sa0 =>
            dsimp only
            exact ih (i + 1) t (acc ++ [sa0]) v sa (by omega) (by omega) ht hv hp
              (fun jj h1 h2 h3 => hpresent jj h1 (by omega) h3)
          | none =>
            dsimp only
            exact ih (i + 1) t acc v sa (by omega) (by omega) ht hv hp
              (fun jj h1 h2 h3 => hpresent jj h1 (by omega) h3)
      | none =>
        dsimp only
        have hi0 : i = 0 := by
          by_contra hne
          have := hpresent i (by omega) (le_refl i) hilt
          rw [hj] at this
          simp [jsTruthy] at this
        rw [if_neg (by simp [hi0])]
        exact ih (i + 1) t acc v sa (by omega) (by omega) ht hv hp
          (fun jj h1 h2 h3 => hpresent jj h1 (by omega) h3)

theorem parseBlobList_all_valid (parseJson : String → Option ServiceAccount) :
    ∀ blobs : List String,
      (∀ b ∈ blobs, jsTrim b = "" ∨ ∃ sa, parseJson (jsTrim b) = some sa) →
      parseBlobList parseJson blobs =
        blobs.filterMap (fun b => if jsTrim b = "" then none else parseJson (jsTrim b)) := by
  intro blobs
  induction blobs with
  | nil => intro _; rfl
  | cons b rest ih =>
    intro hall
    unfold parseBlobList
    rcases hall b (List.mem_cons_self b rest) with hb | ⟨sa, hsa⟩
    · rw [if_pos hb]
      rw [ih (fun x hx => hall x (List.mem_cons_of_mem b hx))]
      simp [List.filterMap_cons, hb]
    · by_cases hb : jsTrim b = ""
      · rw [if_pos hb]
        rw [ih (fun x hx => hall x (List.mem_cons_of_mem b hx))]
        simp [List.filterMap_cons, hb]
      · rw [if_neg hb, hsa]
        rw [ih (fun x hx => hall x (List.mem_cons_of_mem b hx))]
        simp [List.filterMap_cons, hb, hsa]

theorem parseBlobList_abort (parseJson : String → Option ServiceAccount) :
    ∀ (pre : List String) (b : String) (post : List String),
      (∀ x ∈ pre, jsTrim x ≠ "" ∧ ∃ sa, parseJson (jsTrim x) = some sa) →
      jsTrim b ≠ "" → parseJson (jsTrim b) = none →
      parseBlobList parseJson (pre ++ b :: post) =
        pre.filterMap (fun x => parseJson (jsTrim x)) := by
  intro pre
  induction pre with
  | nil =>
    intro b post _ hb hpb
    unfold parseBlobList
    rw [List.nil_append] at *
    dsimp only
    rw [if_neg hb, hpb]
    rfl
  | cons x rest ih =>
    intro b post hall hb hpb
    obtain ⟨hx, sa, hsa⟩ := hall x (List.mem_cons_self x rest)
    unfold parseBlobList
    rw [List.cons_append]
    dsimp only
    rw [if_neg hx, hsa]
    rw [ih b post (fun y hy => hall y (List.mem_cons_of_mem x hy)) hb hpb]
    simp [List.filterMap_cons, hsa]

/-- The C5 parse oracle: the blob `"A"` is the only well-formed JSON. -/
def c5ParseW : String → Option ServiceAccount :=
  fun str => if str = "A" then some sampleAccountA else none

/-- The C5 counterexample environment: only `GDRIVE_SERVICE_ACCOUNT_5` is
set (well-formed), indices 0-4 are absent. -/
def c5GapEnv : EnvConfig :=
  { numbered := fun i => if i = 5 then some "A" else none }

/-- C5 counterexample: `GDRIVE_SERVICE_ACCOUNT_5` is present and
well-formed, yet resolution yields the empty list — the numbered-key scan
breaks at the first missing index (1) because no account has been
collected, so a present numbered key below 100 is never parsed. -/
theorem c5_counterexample_numbered_gap :
    c5GapEnv.numbered 5 = some "A" ∧
    c5ParseW "A" = some sampleAccountA ∧
    parseServiceAccounts c5ParseW c5GapEnv = [] ∧
    sampleAccountA ∉ parseServiceAccounts c5ParseW c5GapEnv := by
  refine ⟨rfl, rfl, rfl, ?_⟩
  intro hmem
  rw [show parseServiceAccounts c5ParseW c5GapEnv = [] from rfl] at hmem
  simp at hmem

/-- C5 (amended): the environment-variable method never aborts resolution
and succeeds with however many valid records remain (even zero), and each
malformed numbered entry is skipped individually; but completeness is
narrower than claimed: the delimiter-joined value is collected only up to
its first malformed blob (the shared `try` aborts the remaining blobs of
that value, keeping the ones already parsed), and a present well-formed
numbered key at index `t < 100` is guaranteed to appear only when every
index `1 … t-1` is also present (the scan breaks at the first missing
index ≥ 1 reached while the accumulated list is still empty). -/
theorem c5_env_parsing_behaviour (parseJson : String → Option ServiceAccount) :
    (∀ blobs : List String,
      (∀ b ∈ blobs, jsTrim b = "" ∨ ∃ sa, parseJson (jsTrim b) = some sa) →
      parseBlobList parseJson blobs =
        blobs.filterMap (fun b => if jsTrim b = "" then none else parseJson (jsTrim b))) ∧
    (∀ (pre : List String) (b : String) (post : List String),
      (∀ x ∈ pre, jsTrim x ≠ "" ∧ ∃ sa, parseJson (jsTrim x) = some sa) →
      jsTrim b ≠ "" → parseJson (jsTrim b) = none →
      parseBlobList parseJson (pre ++ b :: post) =
        pre.filterMap (fun x => parseJson (jsTrim x))) ∧
    (∀ (env : EnvConfig) (t : Nat) (v : String) (sa : ServiceAccount),
      t < 100 → env.numbered t = some v → v ≠ "" → parseJson v = some sa →
      (∀ jj, 1 ≤ jj → jj < t → jsTruthy (env.numbered jj) = true) →
      sa ∈ parseServiceAccounts parseJson env) := by
  refine ⟨parseBlobList_all_valid parseJson, parseBlobList_abort parseJson, ?_⟩
  intro env t v sa hlt ht hv hp hpresent
  unfold parseServiceAccounts
  exact numberedScan_mem parseJson env 100 0 t _ v sa (Nat.zero_le t) (by omega)
    ht hv hp (fun jj h1 h2 h3 => hpresent jj h1 h3)

/-- The C5 witness environment: a joined value `A|||bad|||A` and the
contiguous numbered keys 0 and 1 (key 1 malformed). -/
def c5WitnessEnv : EnvConfig :=
  { GDRIVE_SERVICE_ACCOUNTS := some "A|||bad|||A",
    numbered := fun i => if i = 0 then some "A" else if i = 1 then some "bad"
      else if i = 2 then some "A" else none }

/-- C5 witness: the abort lemma applied to the concrete joined value (the
second valid blob is lost to the malformed one), and the membership lemma
applied to numbered key 2, which survives the malformed key 1. -/
theorem c5_env_parsing_behaviour_witness :
    parseBlobList c5ParseW (["A"] ++ "bad" :: ["A"]) =
      List.filterMap (fun x => c5ParseW (jsTrim x)) ["A"] ∧
    sampleAccountA ∈ parseServiceAccounts c5ParseW c5WitnessEnv :=
  ⟨(c5_env_parsing_behaviour c5ParseW).2.1 ["A"] "bad" ["A"]
      (by
        intro x hx
        simp at hx
        subst hx
        exact ⟨by decide, sampleAccountA, by decide⟩)
      (by decide) (by decide),
   (c5_env_parsing_behaviour c5ParseW).2.2 c5WitnessEnv 2 "A" sampleAccountA
      (by decide) rfl (by decide) rfl
      (by
        intro jj h1 h3
        have : jj = 1 := by omega
        subst this
        rfl)⟩

/-! C8: the Drive query built for a type-and-search listing, and quote
escaping. -/

theorem escapeQuoteChar_backslash_before_quote :
    ∀ (l : List Char) (i : Nat),
      (l.flatMap escapeQuoteChar)[i]? = some '\'' →
      0 < i ∧ (l.flatMap escapeQuoteChar)[i - 1]? = some '\\' := by
  intro l
  induction l with
  | nil => intro i h; simp at h
  | cons c rest ih =>
    intro i h
    rw [List.flatMap_cons] at h ⊢
    by_cases hc : c = '\''
    · rw [hc] at h ⊢
      rw [show escapeQuoteChar '\'' = ['\\', '\''] from rfl] at h ⊢
      match i with
      | 0 =>
        rw [List.cons_append, List.getElem?_cons_zero] at h
        exact absurd (Option.some.inj h) (by decide)
      | 1 => exact ⟨Nat.zero_lt_one, rfl⟩
      | n + 2 =>
        rw [List.cons_append, List.cons_append, List.getElem?_cons_succ,
          List.getElem?_cons_succ] at h
        obtain ⟨hn, hprev⟩ := ih n h
        refine ⟨by omega, ?_⟩
        rw [show n + 2 - 1 = (n - 1) + 2 by omega]
        rw [List.cons_append, List.cons_append, List.getElem?_cons_succ,
          List.getElem?_cons_succ]
        exact hprev
    · rw [show escapeQuoteChar c = [c] from if_neg hc] at h ⊢
      match i with
      | 0 =>
        rw [List.cons_append, List.nil_append, List.getElem?_cons_zero] at h
        exact absurd (Option.some.inj h) hc
      | n + 1 =>
        rw [List.cons_append, List.nil_append, List.getElem?_cons_succ] at h
        obtain ⟨hn, hprev⟩ := ih n h
        refine ⟨by omega, ?_⟩
        rw [show n + 1 - 1 = (n - 1) + 1 by omega]
        rw [List.cons_append, List.nil_append, List.getElem?_cons_succ]
        exact hprev

theorem buildParentsQuery_ne_empty (parents : List String) (hp : parents ≠ []) :
    buildParentsQuery parents ≠ "" := by
  match parents with
  | [] => exact absurd rfl hp
  | p :: ps =>
    unfold buildParentsQuery
    rw [if_neg (by simp)]
    dsimp only
    match ps with
    | [] =>
      rw [if_pos (by simp)]
      intro h
      have hlen := congrArg String.length h
      rw [show (List.map (fun parentId => "'" ++ parentId ++ "' in parents") [p]).headD "" =
        "'" ++ p ++ "' in parents" from rfl] at hlen
      rw [String.length_append, String.length_append] at hlen
      rw [show ("'" : String).length = 1 from rfl,
        show ("' in parents" : String).length = 12 from rfl,
        show ("" : String).length = 0 from rfl] at hlen
      omega
    | q :: qs =>
      rw [if_neg (by simp)]
      intro h
      have hlen := congrArg String.length h
      rw [String.length_append, String.length_append] at hlen
      rw [show ("(" : String).length = 1 from rfl,
        show (")" : String).length = 1 from rfl,
        show ("" : String).length = 0 from rfl] at hlen
      omega

/-- C8: with configured roots, type `images` and search `cat`, the query
is the ` and `-join of `trashed = false`, the parents clause, the escaped
`name contains` clause and the or-join of the image MIME predicates (a
single predicate for the `images` class, so no parentheses); each single
quote of a search term is escaped by backslash-prefixing, so the term
`O'Brien` appears in the query as `O\\'Brien`. -/
theorem c8_images_search_query (parents : List String) (hp : parents ≠ []) :
    listFilesQuery parents { search := some "cat", type := some "images" } =
      String.intercalate " and "
        ["trashed = false", buildParentsQuery parents,
         "name contains 'cat'", "mimeType contains 'image/'"] ∧
    buildTypeClause (some "images") = String.intercalate " or " (TYPE_FILTERS "images") ∧
    escapeQueryValue "O'Brien" = "O\\'Brien" ∧
    listFilesQuery parents { search := some "O'Brien", type := some "images" } =
      String.intercalate " and "
        ["trashed = false", buildParentsQuery parents,
         "name contains 'O\\'Brien'", "mimeType contains 'image/'"] ∧
    (∀ (term : String) (i : Nat),
      (escapeQueryValue term).data[i]? = some '\'' →
      0 < i ∧ (escapeQueryValue term).data[i - 1]? = some '\\') := by
  have hpc := buildParentsQuery_ne_empty parents hp
  refine ⟨?_, by decide, by decide, ?_, ?_⟩
  · unfold listFilesQuery
    dsimp only
    rw [if_neg hpc]
    rw [if_neg (by decide : ¬jsTrim ((some "cat").getD "") = "")]
    rw [if_neg (by decide : ¬buildTypeClause (some "images") = "")]
    rw [show ("name contains '" ++ escapeQueryValue (jsTrim ((some "cat").getD "")) ++ "'")
      = "name contains 'cat'" by decide]
    rw [show buildTypeClause (some "images") = "mimeType contains 'image/'" from by decide]
    simp
  · unfold listFilesQuery
    dsimp only
    rw [if_neg hpc]
    rw [if_neg (by decide : ¬jsTrim ((some "O'Brien").getD "") = "")]
    rw [if_neg (by decide : ¬buildTypeClause (some "images") = "")]
    rw [show ("name contains '" ++ escapeQueryValue (jsTrim ((some "O'Brien").getD "")) ++ "'")
      = "name contains 'O\\'Brien'" by decide]
    rw [show buildTypeClause (some "images") = "mimeType contains 'image/'" from by decide]
    simp
  · intro term i h
    exact escapeQuoteChar_backslash_before_quote term.data i h

/-- C8 witness: the single root `root`. -/
theorem c8_images_search_query_witness :
    listFilesQuery ["root"] { search := some "cat", type := some "images" } =
      String.intercalate " and "
        ["trashed = false", buildParentsQuery ["root"],
         "name contains 'cat'", "mimeType contains 'image/'"] ∧
    escapeQueryValue "O'Brien" = "O\\'Brien" :=
  ⟨(c8_images_search_query ["root"] (by simp)).1,
   (c8_images_search_query ["root"] (by simp)).2.2.1⟩

/-! C7: the JWT assertion segments — round-trip and padding freeness. -/

theorem b64_inv : ∀ v : Fin 64, b64CharVal (b64ToUrlChar (b64Char v.val)) = some v.val := by
  decide

theorem b64Char_props : ∀ v : Fin 64,
    b64ToUrlChar (b64Char v.val) ≠ '=' ∧ b64ToUrlChar (b64Char v.val) ≠ '.' := by
  decide

theorem dropTrailingEq_append (a b : List Char) (ha : ∀ c ∈ a, ¬(c = '=')) :
    dropTrailingEq (a ++ b) = a ++ dropTrailingEq b := by
  unfold dropTrailingEq
  rw [List.reverse_append, List.dropWhile_append]
  by_cases hb : (b.reverse.dropWhile fun c => c = '=').isEmpty
  · rw [if_pos hb]
    have hbnil : (b.reverse.dropWhile fun c => c = '=') = [] := by
      rwa [List.isEmpty_iff] at hb
    have hall : (a.reverse.dropWhile fun c => c = '=') = a.reverse := by
      rw [List.dropWhile_eq_self_iff]
      intro hl
      have hmem : a.reverse.get ⟨0, hl⟩ ∈ a := by
        rw [← List.mem_reverse]
        exact List.get_mem _ _ _
      simpa using ha _ hmem
    rw [hall, hbnil, List.reverse_reverse]
    simp
  · rw [if_neg hb]
    rw [List.reverse_append, List.reverse_reverse]

theorem b64_roundtrip : ∀ (bytes : List Nat), (∀ b ∈ bytes, b < 256) →
    b64UrlDecodeChars (dropTrailingEq ((b64EncodeBytes bytes).map b64ToUrlChar)) = some bytes
  | [], _ => rfl
  | [b1], h => by
    have hb1 : b1 < 256 := h b1 (by simp)
    have hv1 : b1 / 4 < 64 := by omega
    have hv2 : b1 % 4 * 16 < 64 := by omega
    rw [show b64EncodeBytes [b1] = [b64Char (b1 / 4), b64Char (b1 % 4 * 16), '=', '='] from
      rfl]
    rw [show ([b64Char (b1 / 4), b64Char (b1 % 4 * 16), '=', '='].map b64ToUrlChar) =
      [b64ToUrlChar (b64Char (b1 / 4)), b64ToUrlChar (b64Char (b1 % 4 * 16))] ++ ['=', '=']
      from rfl]
    rw [dropTrailingEq_append _ _ (by
      intro c hc
      simp only [List.mem_cons, List.not_mem_nil, or_false] at hc
      rcases hc with rfl | rfl
      · exact (b64Char_props ⟨b1 / 4, hv1⟩).1
      · exact (b64Char_props ⟨b1 % 4 * 16, hv2⟩).1)]
    rw [show dropTrailingEq ['=', '='] = [] from rfl, List.append_nil]
    rw [show b64UrlDecodeChars
        [b64ToUrlChar (b64Char (b1 / 4)), b64ToUrlChar (b64Char (b1 % 4 * 16))] =
      (match b64CharVal (b64ToUrlChar (b64Char (b1 / 4))),
          b64CharVal (b64ToUrlChar (b64Char (b1 % 4 * 16))) with
        | some v1, some v2 => some [v1 * 4 + v2 / 16]
        | _, _ => none) from rfl]
    rw [b64_inv ⟨b1 / 4, hv1⟩, b64_inv ⟨b1 % 4 * 16, hv2⟩]
    dsimp only
    simp only [Option.some.injEq, List.cons.injEq, and_true]
    omega
  | [b1, b2], h => by
    have hb1 : b1 < 256 := h b1 (by simp)
    have hb2 : b2 < 256 := h b2 (by simp)
    have hv1 : b1 / 4 < 64 := by omega
    have hv2 : b1 % 4 * 16 + b2 / 16 < 64 := by omega
    have hv3 : b2 % 16 * 4 < 64 := by omega
    rw [show b64EncodeBytes [b1, b2] =
      [b64Char (b1 / 4), b64Char (b1 % 4 * 16 + b2 / 16), b64Char (b2 % 16 * 4), '='] from
      rfl]
    rw [show ([b64Char (b1 / 4), b64Char (b1 % 4 * 16 + b2 / 16), b64Char (b2 % 16 * 4),
        '='].map b64ToUrlChar) =
      [b64ToUrlChar (b64Char (b1 / 4)), b64ToUrlChar (b64Char (b1 % 4 * 16 + b2 / 16)),
        b64ToUrlChar (b64Char (b2 % 16 * 4))] ++ ['='] from rfl]
    rw [dropTrailingEq_append _ _ (by
      intro c hc
      simp only [List.mem_cons, List.not_mem_nil, or_false] at hc
      rcases hc with rfl | rfl | rfl
      · exact (b64Char_props ⟨b1 / 4, hv1⟩).1
      · exact (b64Char_props ⟨b1 % 4 * 16 + b2 / 16, hv2⟩).1
      · exact (b64Char_props ⟨b2 % 16 * 4, hv3⟩).1)]
    rw [show dropTrailingEq ['='] = [] from rfl, List.append_nil]
    rw [show b64UrlDecodeChars
        [b64ToUrlChar (b64Char (b1 / 4)), b64ToUrlChar (b64Char (b1 % 4 * 16 + b2 / 16)),
          b64ToUrlChar (b64Char (b2 % 16 * 4))] =
      (match b64CharVal (b64ToUrlChar (b64Char (b1 / 4))),
          b64CharVal (b64ToUrlChar (b64Char (b1 % 4 * 16 + b2 / 16))),
          b64CharVal (b64ToUrlChar (b64Char (b2 % 16 * 4))) with
        | some v1, some v2, some v3 => some [v1 * 4 + v2 / 16, v2 % 16 * 16 + v3 / 4]
        | _, _, _ => none) from rfl]
    rw [b64_inv ⟨b1 / 4, hv1⟩, b64_inv ⟨b1 % 4 * 16 + b2 / 16, hv2⟩,
      b64_inv ⟨b2 % 16 * 4, hv3⟩]
    dsimp only
    simp only [Option.some.injEq, List.cons.injEq, and_true]
    omega
  | b1 :: b2 :: b3 :: rest, h => by
    have hb1 : b1 < 256 := h b1 (by simp)
    have hb2 : b2 < 256 := h b2 (by simp)
    have hb3 : b3 < 256 := h b3 (by simp)
    have hrest : ∀ b ∈ rest, b < 256 := fun b hb => h b (by simp [hb])
    have ih := b64_roundtrip rest hrest
    have hv1 : b1 / 4 < 64 := by omega
    have hv2 : b1 % 4 * 16 + b2 / 16 < 64 := by omega
    have hv3 : b2 % 16 * 4 + b3 / 64 < 64 := by omega
    have hv4 : b3 % 64 < 64 := by omega
    rw [show b64EncodeBytes (b1 :: b2 :: b3 :: rest) =
      b64Char (b1 / 4) :: b64Char (b1 % 4 * 16 + b2 / 16) ::
        b64Char (b2 % 16 * 4 + b3 / 64) :: b64Char (b3 % 64) :: b64EncodeBytes rest from
      rfl]
    rw [List.map_cons, List.map_cons, List.map_cons, List.map_cons]
    rw [show (b64ToUrlChar (b64Char (b1 / 4)) ::
        b64ToUrlChar (b64Char (b1 % 4 * 16 + b2 / 16)) ::
        b64ToUrlChar (b64Char (b2 % 16 * 4 + b3 / 64)) ::
        b64ToUrlChar (b64Char (b3 % 64)) :: (b64EncodeBytes rest).map b64ToUrlChar) =
      [b64ToUrlChar (b64Char (b1 / 4)), b64ToUrlChar (b64Char (b1 % 4 * 16 + b2 / 16)),
        b64ToUrlChar (b64Char (b2 % 16 * 4 + b3 / 64)), b64ToUrlChar (b64Char (b3 % 64))] ++
        (b64EncodeBytes rest).map b64ToUrlChar from rfl]
    rw [dropTrailingEq_append _ _ (by
      intro c hc
      simp only [List.mem_cons, List.not_mem_nil, or_false] at hc
      rcases hc with rfl | rfl | rfl | rfl
      · exact (b64Char_props ⟨b1 / 4, hv1⟩).1
      · exact (b64Char_props ⟨b1 % 4 * 16 + b2 / 16, hv2⟩).1
      · exact (b64Char_props ⟨b2 % 16 * 4 + b3 / 64, hv3⟩).1
      · exact (b64Char_props ⟨b3 % 64, hv4⟩).1)]
    rw [List.cons_append, List.cons_append, List.cons_append, List.cons_append,
      List.nil_append]
    rw [show b64UrlDecodeChars (b64ToUrlChar (b64Char (b1 / 4)) ::
        b64ToUrlChar (b64Char (b1 % 4 * 16 + b2 / 16)) ::
        b64ToUrlChar (b64Char (b2 % 16 * 4 + b3 / 64)) ::
        b64ToUrlChar (b64Char (b3 % 64)) ::
        dropTrailingEq ((b64EncodeBytes rest).map b64ToUrlChar)) =
      (match b64CharVal (b64ToUrlChar (b64Char (b1 / 4))),
          b64CharVal (b64ToUrlChar (b64Char (b1 % 4 * 16 + b2 / 16))),
          b64CharVal (b64ToUrlChar (b64Char (b2 % 16 * 4 + b3 / 64))),
          b64CharVal (b64ToUrlChar (b64Char (b3 % 64))),
          b64UrlDecodeChars (dropTrailingEq ((b64EncodeBytes rest).map b64ToUrlChar)) with
        | some v1, some v2, some v3, some v4, some bs =>
          some ((v1 * 4 + v2 / 16) :: (v2 % 16 * 16 + v3 / 4) :: (v3 % 4 * 64 + v4) :: bs)
        | _, _, _, _, _ => none) from rfl]
    rw [b64_inv ⟨b1 / 4, hv1⟩, b64_inv ⟨b1 % 4 * 16 + b2 / 16, hv2⟩,
      b64_inv ⟨b2 % 16 * 4 + b3 / 64, hv3⟩, b64_inv ⟨b3 % 64, hv4⟩, ih]
    dsimp only
    simp only [Option.some.injEq, List.cons.injEq]
    refine ⟨by omega, by omega, by omega, trivial⟩

theorem b64_url_chars : ∀ (bytes : List Nat), (∀ b ∈ bytes, b < 256) →
    ∀ c ∈ dropTrailingEq ((b64EncodeBytes bytes).map b64ToUrlChar), c ≠ '=' ∧ c ≠ '.'
  | [], _ => by intro c hc; cases hc
  | [b1], h => by
    have hb1 : b1 < 256 := h b1 (by simp)
    have hv1 : b1 / 4 < 64 := by omega
    have hv2 : b1 % 4 * 16 < 64 := by omega
    rw [show b64EncodeBytes [b1] = [b64Char (b1 / 4), b64Char (b1 % 4 * 16), '=', '='] from
      rfl]
    rw [show ([b64Char (b1 / 4), b64Char (b1 % 4 * 16), '=', '='].map b64ToUrlChar) =
      [b64ToUrlChar (b64Char (b1 / 4)), b64ToUrlChar (b64Char (b1 % 4 * 16))] ++ ['=', '=']
      from rfl]
    rw [dropTrailingEq_append _ _ (by
      intro c hc
      simp only [List.mem_cons, List.not_mem_nil, or_false] at hc
      rcases hc with rfl | rfl
      · exact (b64Char_props ⟨b1 / 4, hv1⟩).1
      · exact (b64Char_props ⟨b1 % 4 * 16, hv2⟩).1)]
    rw [show dropTrailingEq ['=', '='] = [] from rfl, List.append_nil]
    intro c hc
    simp only [List.mem_cons, List.not_mem_nil, or_false] at hc
    rcases hc with rfl | rfl
    · exact b64Char_props ⟨b1 / 4, hv1⟩
    · exact b64Char_props ⟨b1 % 4 * 16, hv2⟩
  | [b1, b2], h => by
    have hb1 : b1 < 256 := h b1 (by simp)
    have hb2 : b2 < 256 := h b2 (by simp)
    have hv1 : b1 / 4 < 64 := by omega
    have hv2 : b1 % 4 * 16 + b2 / 16 < 64 := by omega
    have hv3 : b2 % 16 * 4 < 64 := by omega
    rw [show b64EncodeBytes [b1, b2] =
      [b64Char (b1 / 4), b64Char (b1 % 4 * 16 + b2 / 16), b64Char (b2 % 16 * 4), '='] from
      rfl]
    rw [show ([b64Char (b1 / 4), b64Char (b1 % 4 * 16 + b2 / 16), b64Char (b2 % 16 * 4),
        '='].map b64ToUrlChar) =
      [b64ToUrlChar (b64Char (b1 / 4)), b64ToUrlChar (b64Char (b1 % 4 * 16 + b2 / 16)),
        b64ToUrlChar (b64Char (b2 % 16 * 4))] ++ ['='] from rfl]
    rw [dropTrailingEq_append _ _ (by
      intro c hc
      simp only [List.mem_cons, List.not_mem_nil, or_false] at hc
      rcases hc with rfl | rfl | rfl
      · exact (b64Char_props ⟨b1 / 4, hv1⟩).1
      · exact (b64Char_props ⟨b1 % 4 * 16 + b2 / 16, hv2⟩).1
      · exact (b64Char_props ⟨b2 % 16 * 4, hv3⟩).1)]
    rw [show dropTrailingEq ['='] = [] from rfl, List.append_nil]
    intro c hc
    simp only [List.mem_cons, List.not_mem_nil, or_false] at hc
    rcases hc with rfl | rfl | rfl
    · exact b64Char_props ⟨b1 / 4, hv1⟩
    · exact b64Char_props ⟨b1 % 4 * 16 + b2 / 16, hv2⟩
    · exact b64Char_props ⟨b2 % 16 * 4, hv3⟩
  | b1 :: b2 :: b3 :: rest, h => by
    have hb1 : b1 < 256 := h b1 (by simp)
    have hb2 : b2 < 256 := h b2 (by simp)
    have hb3 : b3 < 256 := h b3 (by simp)
    have hrest : ∀ b ∈ rest, b < 256 := fun b hb => h b (by simp [hb])
    have ih := b64_url_chars rest hrest
    have hv1 : b1 / 4 < 64 := by omega
    have hv2 : b1 % 4 * 16 + b2 / 16 < 64 := by omega
    have hv3 : b2 % 16 * 4 + b3 / 64 < 64 := by omega
    have hv4 : b3 % 64 < 64 := by omega
    rw [show b64EncodeBytes (b1 :: b2 :: b3 :: rest) =
      b64Char (b1 / 4) :: b64Char (b1 % 4 * 16 + b2 / 16) ::
        b64Char (b2 % 16 * 4 + b3 / 64) :: b64Char (b3 % 64) :: b64EncodeBytes rest from
      rfl]
    rw [List.map_cons, List.map_cons, List.map_cons, List.map_cons]
    rw [show (b64ToUrlChar (b64Char (b1 / 4)) ::
        b64ToUrlChar (b64Char (b1 % 4 * 16 + b2 / 16)) ::
        b64ToUrlChar (b64Char (b2 % 16 * 4 + b3 / 64)) ::
        b64ToUrlChar (b64Char (b3 % 64)) :: (b64EncodeBytes rest).map b64ToUrlChar) =
      [b64ToUrlChar (b64Char (b1 / 4)), b64ToUrlChar (b64Char (b1 % 4 * 16 + b2 / 16)),
        b64ToUrlChar (b64Char (b2 % 16 * 4 + b3 / 64)), b64ToUrlChar (b64Char (b3 % 64))] ++
        (b64EncodeBytes rest).map b64ToUrlChar from rfl]
    rw [dropTrailingEq_append _ _ (by
      intro c hc
      simp only [List.mem_cons, List.not_mem_nil, or_false] at hc
      rcases hc with rfl | rfl | rfl | rfl
      · exact (b64Char_props ⟨b1 / 4, hv1⟩).1
      · exact (b64Char_props ⟨b1 % 4 * 16 + b2 / 16, hv2⟩).1
      · exact (b64Char_props ⟨b2 % 16 * 4 + b3 / 64, hv3⟩).1
      · exact (b64Char_props ⟨b3 % 64, hv4⟩).1)]
    intro c hc
    rw [List.mem_append] at hc
    rcases hc with hc | hc
    · simp only [List.mem_cons, List.not_mem_nil, or_false] at hc
      rcases hc with rfl | rfl | rfl | rfl
      · exact b64Char_props ⟨b1 / 4, hv1⟩
      · exact b64Char_props ⟨b1 % 4 * 16 + b2 / 16, hv2⟩
      · exact b64Char_props ⟨b2 % 16 * 4 + b3 / 64, hv3⟩
      · exact b64Char_props ⟨b3 % 64, hv4⟩
    · exact ih c hc

theorem base64UrlDecode_encode (s : String) (h : ∀ c ∈ s.data, c.toNat < 256) :
    base64UrlDecode (base64UrlEncode s) = some s := by
  have hbytes : ∀ b ∈ strBytes s, b < 256 := by
    intro b hb
    unfold strBytes at hb
    obtain ⟨c, hc, rfl⟩ := List.mem_map.mp hb
    exact h c hc
  unfold base64UrlDecode base64UrlEncode btoa
  rw [show (String.mk (dropTrailingEq
      ((String.mk (b64EncodeBytes (strBytes s))).data.map b64ToUrlChar))).data =
    dropTrailingEq ((b64EncodeBytes (strBytes s)).map b64ToUrlChar) from rfl]
  rw [b64_roundtrip (strBytes s) hbytes]
  unfold strBytes
  show some (String.mk ((s.data.map fun c => c.toNat).map Char.ofNat)) = some s
  rw [List.map_map]
  have hid : s.data.map (Char.ofNat ∘ fun c => c.toNat) = s.data := by
    conv_rhs => rw [← List.map_id s.data]
    apply List.map_congr_left
    intro c _
    exact Char.ofNat_toNat c
  rw [hid]

theorem base64UrlEncode_chars (s : String) (h : ∀ c ∈ s.data, c.toNat < 256) :
    ∀ c ∈ (base64UrlEncode s).data, c ≠ '=' ∧ c ≠ '.' := by
  have hbytes : ∀ b ∈ strBytes s, b < 256 := by
    intro b hb
    unfold strBytes at hb
    obtain ⟨c, hc, rfl⟩ := List.mem_map.mp hb
    exact h c hc
  intro c hc
  exact b64_url_chars (strBytes s) hbytes c hc

/-- C7: the JWT assertion is `header.payload.signature`; base64url-decoding
the first segment yields exactly the serialized JSON of
`alg: RS256, typ: JWT`, decoding the second yields exactly the serialized
JSON of `iss, scope, aud, exp = iat+3600, iat`, and no segment contains a
padding `=` (nor a `.`, so the three segments are well delimited). -/
theorem c7_jwt_assertion_roundtrip
    (sa : ServiceAccount) (email : String) (nowMs : Nat) (sigBytes : List Nat)
    (he : sa.client_email = some email)
    (hsig : ∀ b ∈ sigBytes, b < 256)
    (hpay : ∀ c ∈ (payloadJson (some email) (nowMs / 1000)).data, c.toNat < 256) :
    generateServiceAccountAssertion sa nowMs sigBytes =
      base64UrlEncode headerJson ++ "." ++
        base64UrlEncode (payloadJson (some email) (nowMs / 1000)) ++ "." ++
        encodeSignature sigBytes ∧
    base64UrlDecode (base64UrlEncode headerJson) = some headerJson ∧
    headerJson = "\x7b\"alg\":\"RS256\",\"typ\":\"JWT\"\x7d" ∧
    base64UrlDecode (base64UrlEncode (payloadJson (some email) (nowMs / 1000))) =
      some (payloadJson (some email) (nowMs / 1000)) ∧
    (∀ c ∈ (base64UrlEncode headerJson).data, c ≠ '=' ∧ c ≠ '.') ∧
    (∀ c ∈ (base64UrlEncode (payloadJson (some email) (nowMs / 1000))).data,
      c ≠ '=' ∧ c ≠ '.') ∧
    (∀ c ∈ (encodeSignature sigBytes).data, c ≠ '=' ∧ c ≠ '.') := by
  refine ⟨?_, ?_, rfl, ?_, ?_, ?_, ?_⟩
  · unfold generateServiceAccountAssertion
    rw [he]
  · exact base64UrlDecode_encode headerJson (by decide)
  · exact base64UrlDecode_encode _ hpay
  · exact base64UrlEncode_chars headerJson (by decide)
  · exact base64UrlEncode_chars _ hpay
  · intro c hc
    exact b64_url_chars sigBytes hsig c hc

/-- The C7 witness record. -/
def c7AccountW : ServiceAccount := { client_email := some "a@b" }

set_option maxRecDepth 4000 in
/-- C7 witness: the concrete record `a@b` at `nowMs = 0` with a three-byte
signature. -/
theorem c7_jwt_assertion_roundtrip_witness :
    generateServiceAccountAssertion c7AccountW 0 [0, 1, 250] =
      base64UrlEncode headerJson ++ "." ++
        base64UrlEncode (payloadJson (some "a@b") 0) ++ "." ++
        encodeSignature [0, 1, 250] ∧
    base64UrlDecode (base64UrlEncode headerJson) = some headerJson ∧
    headerJson = "\x7b\"alg\":\"RS256\",\"typ\":\"JWT\"\x7d" ∧
    base64UrlDecode (base64UrlEncode (payloadJson (some "a@b") 0)) =
      some (payloadJson (some "a@b") 0) ∧
    (∀ c ∈ (base64UrlEncode headerJson).data, c ≠ '=' ∧ c ≠ '.') ∧
    (∀ c ∈ (base64UrlEncode (payloadJson (some "a@b") 0)).data, c ≠ '=' ∧ c ≠ '.') ∧
    (∀ c ∈ (encodeSignature [0, 1, 250]).data, c ≠ '=' ∧ c ≠ '.') :=
  c7_jwt_assertion_roundtrip c7AccountW "a@b" 0 [0, 1, 250] rfl (by decide) (by decide)

end GDriveCdn
